import Mathlib

/-!
Verification development for the SumoNetVis network model
(source file src/SumoNetVis/Net.py).

The Python source is shallowly embedded as executable Lean definitions:

* Python floats are modelled as exact rationals.  The claims under study
  do not depend on floating-point rounding, so a structurally computable
  rational type `Q` (always kept in normalized form) is used.
* Python strings are Lean strings; string splitting and integer parsing
  are implemented structurally over the character list so that all
  definitions evaluate inside the kernel.
* Shapely geometry operations (buffer, parallel_offset, substring, ...)
  are external-library calls; they are represented symbolically by the
  inductive type `Geom` and the symbolic arc-length expressions `RExpr`,
  recording exactly the operations and arguments the source performs.
* Mutable Python objects with aliasing (lanes referenced from junctions,
  connections and edges) are modelled by an explicit network state `Net`;
  object references are modelled as identifiers (edge ids, junction ids,
  and `LaneRef` = parent edge id plus lane index), matching how the
  source resolves them.
* Python exceptions (KeyError, ValueError, IndexError, ReferenceError,
  AttributeError) are modelled with `Except String`.
* The class `_Utils.Allowance` is imported by Net.py from a module that
  is not part of the sources under verification; it is modelled from the
  specification text (section 4.1 of the design document), see
  `Allowance` below.
-/

namespace SumoNetVis

/-! ## Structural rational arithmetic

Python float values are modelled as exact rationals.  `Q` is kept in
normalized form by the smart constructor `Q.norm`, which uses a fuelled
(and therefore kernel-reducible) Euclidean gcd. -/

/-- Fuelled Euclidean gcd; with fuel at least `m + 1` this computes `gcd m n`. -/
def natGcdF (fuel m n : Nat) : Nat :=
  match fuel with
  | 0 => n
  | fuel + 1 => if m = 0 then n else natGcdF fuel (n % m) m

/-- Rational number as a numerator-denominator pair.  All values produced by
the operations below are in lowest terms with positive denominator, so
structural equality coincides with numeric equality. -/
structure Q where
  num : Int
  den : Nat
deriving DecidableEq, Repr

/-- Build a normalized rational from a numerator and a positive denominator. -/
def Q.norm (n : Int) (d : Nat) : Q :=
  if d = 0 then ⟨0, 1⟩
  else
    let g := natGcdF (n.natAbs + 1) n.natAbs d
    if g = 0 then ⟨0, 1⟩ else ⟨n / (g : Int), d / g⟩

/-- Build a normalized rational from an integer numerator and denominator. -/
def Q.divInt (n d : Int) : Q :=
  if d < 0 then Q.norm (-n) (-d).toNat else Q.norm n d.toNat

def Q.ofInt (n : Int) : Q := ⟨n, 1⟩

def Q.add (a b : Q) : Q :=
  Q.norm (a.num * (b.den : Int) + b.num * (a.den : Int)) (a.den * b.den)

def Q.sub (a b : Q) : Q :=
  Q.norm (a.num * (b.den : Int) - b.num * (a.den : Int)) (a.den * b.den)

def Q.mul (a b : Q) : Q := Q.norm (a.num * b.num) (a.den * b.den)

def Q.div (a b : Q) : Q :=
  Q.divInt (a.num * (b.den : Int)) ((a.den : Int) * b.num)

/-! ## String utilities

Structural (kernel-reducible) counterparts of the Python string
operations used by Net.py: `str.split(sep)` for a one-character
separator, `sep.join(parts)`, `int(s)` and `float(s)` (decimal forms). -/

/-- Split a character list at every occurrence of `sep`; mirrors Python
`str.split(sep)` for a single-character separator (in particular, the
result is never empty, and an empty input yields one empty group). -/
def splitOnChar (sep : Char) : List Char → List (List Char)
  | [] => [[]]
  | c :: rest =>
    let r := splitOnChar sep rest
    if c = sep then [] :: r
    else
      match r with
      | [] => [[c]]
      | g :: gs => (c :: g) :: gs

/-- Python `s.split(sep)` for a one-character separator. -/
def strSplit (s : String) (sep : Char) : List String :=
  (splitOnChar sep s.data).map String.mk

/-- Python `sep.join(parts)`. -/
def joinSep (sep : String) : List String → String
  | [] => ""
  | [s] => s
  | s :: rest => s ++ sep ++ joinSep sep rest

/-- Accumulate decimal digits; `none` if a non-digit character occurs. -/
def digitsToNat (acc : Nat) : List Char → Option Nat
  | [] => some acc
  | c :: cs =>
    if c.isDigit then digitsToNat (acc * 10 + (c.toNat - '0'.toNat)) cs
    else none

/-- Python `int(s)` on decimal literals (optional sign); `none` models the
ValueError raised on malformed input. -/
def parseInt (s : String) : Option Int :=
  match s.data with
  | [] => none
  | '-' :: rest =>
    if rest.isEmpty then none
    else (digitsToNat 0 rest).map (fun n => -(n : Int))
  | '+' :: rest =>
    if rest.isEmpty then none
    else (digitsToNat 0 rest).map (fun n => (n : Int))
  | cs => (digitsToNat 0 cs).map (fun n => (n : Int))

/-- Python `float(s)` on plain decimal literals (optional sign, optional
fractional part); `none` models the ValueError raised on malformed input. -/
def parseQ (s : String) : Option Q :=
  let signAndDigits : Int × List Char :=
    match s.data with
    | '-' :: rest => (-1, rest)
    | '+' :: rest => (1, rest)
    | cs => (1, cs)
  let sgn := signAndDigits.1
  let cs := signAndDigits.2
  match splitOnChar '.' cs with
  | [ip] =>
    if ip.isEmpty then none
    else (digitsToNat 0 ip).map (fun n => Q.norm (sgn * (n : Int)) 1)
  | [ip, fp] =>
    if ip.isEmpty && fp.isEmpty then none
    else
      match digitsToNat 0 ip, digitsToNat 0 fp with
      | some i, some f =>
        some (Q.norm (sgn * ((i * 10 ^ fp.length + f : Nat) : Int)) (10 ^ fp.length))
      | _, _ => none
  | _ => none

/-! ## Allowance

Modelled from the spec: the class `_Utils.Allowance` that Net.py imports
is not among the sources under verification, so it is reconstructed from
the specification text.  Per the spec (sections 3 and 4.1), an Allowance
is a set of named vehicle classes drawn from a fixed vocabulary plus a
distinguished "all" member: it is built from an allow list and a
disallow list (allow wins if both are given), the literal "none" denies
every class, "all" or an empty allow list permits every class not
explicitly disallowed, membership is never fatal for unknown names,
`union` permits a class iff either operand does, `is_superset_of` tests
the containment of permitted sets, and equality against a single class
name means that the permitted set is exactly that one class. -/

/-- Fixed vocabulary of vehicle class names (the classes mentioned by the
spec plus the ones Net.py itself queries). -/
def vClassNames : List String :=
  ["passenger", "bicycle", "pedestrian", "ship", "authority", "rail",
   "bus", "truck", "emergency"]

/-- Modelled from the spec: a vehicle-class permission set.  When `isAll`
is true the set permits every class except those in `classes`; otherwise
it permits exactly the classes in `classes`. -/
structure Allowance where
  isAll : Bool
  classes : List String
deriving DecidableEq, Repr

/-- Split a comma/space-separated class-name list. -/
def splitClasses (s : String) : List String :=
  (((strSplit s ' ').map (fun t => strSplit t ',')).flatten).filter
    (fun t => !t.data.isEmpty)

/-- Modelled from the spec: constructing an Allowance from an allow
string and a disallow string (Python `Allowance(allow, disallow)`).
An empty allow list or the literal "all" permits everything not
explicitly disallowed; the literal "none" denies every class; otherwise
the allow list wins and the disallow list is ignored. -/
def Allowance.ofStrings (allow_string : String) (disallow_string : String) : Allowance :=
  let al := splitClasses allow_string
  let dl := splitClasses disallow_string
  if al = [] then ⟨true, dl⟩
  else if al = ["all"] then ⟨true, dl⟩
  else if al = ["none"] then ⟨false, []⟩
  else ⟨false, al⟩

/-- Modelled from the spec: the membership test (Python `allows(c)` and
`allows[c]`). -/
def Allowance.member (a : Allowance) (c : String) : Bool :=
  if a.isAll then !(decide (c ∈ a.classes)) else decide (c ∈ a.classes)

/-- Modelled from the spec: union (accrual, Python `+`): the result
permits a class iff either operand does. -/
def Allowance.union (a b : Allowance) : Allowance :=
  if a.isAll then
    if b.isAll then ⟨true, a.classes.filter (fun c => decide (c ∈ b.classes))⟩
    else ⟨true, a.classes.filter (fun c => !(decide (c ∈ b.classes)))⟩
  else if b.isAll then ⟨true, b.classes.filter (fun c => !(decide (c ∈ a.classes)))⟩
  else ⟨false, a.classes ++ b.classes⟩

/-- Modelled from the spec: `a.is_superset_of b` holds iff every class
of the vocabulary that `b` permits is also permitted by `a`. -/
def Allowance.is_superset_of (a b : Allowance) : Bool :=
  vClassNames.all (fun c => !(b.member c) || a.member c)

/-- Canonical permitted subset of the vocabulary. -/
def Allowance.toSet (a : Allowance) : List String :=
  vClassNames.filter a.member

/-- Modelled from the spec: comparison of an Allowance against a bare
class-name string (Python `allows == "pedestrian"`): the permitted set
is exactly the set denoted by that string. -/
def Allowance.eqString (a : Allowance) (s : String) : Bool :=
  decide (a.toSet = (Allowance.ofStrings s "").toSet)

/-- Pointwise characterization of `Allowance.union`. -/
theorem Allowance.member_union (a b : Allowance) (c : String) :
    (a.union b).member c = (a.member c || b.member c) := by
  rcases a with ⟨fa, la⟩
  rcases b with ⟨fb, lb⟩
  cases fa <;> cases fb <;>
    simp only [Allowance.union, Allowance.member, if_true, if_false,
      Bool.false_eq_true, ite_true, ite_false, List.mem_filter,
      List.mem_append] <;>
    cases hla : decide (c ∈ la) <;> cases hlb : decide (c ∈ lb) <;>
    simp_all

/-- C6: for all Allowances A and B, the union of A and B is a superset of
both A and B; the union permits a class iff at least one operand permits
it, so each operand permitted set is contained in the union permitted
set. -/
theorem allowance_union_is_superset_of_both (A B : Allowance) :
    (A.union B).is_superset_of A = true ∧ (A.union B).is_superset_of B = true := by
  constructor <;>
  · simp only [Allowance.is_superset_of, List.all_eq_true]
    intro c _
    rw [Allowance.member_union]
    cases A.member c <;> cases B.member c <;> rfl

/-! ## Symbolic geometry

The shapely operations used by Net.py are represented symbolically: each
constructor records one geometric operation together with the arguments
the source passes to it.  Arc lengths (`LineString.length`) are
irrational in general, so positions along a curve are symbolic
expressions `RExpr`. -/

/-- Symbolic arc-length expression (a real number). -/
inductive RExpr
  | lit (q : Q)
  | length (coords : List (Q × Q))
  | sub (a b : RExpr)
deriving DecidableEq, Repr

/-- Symbolic planar geometry. -/
inductive Geom
  | lineString (coords : List (Q × Q))
  | buffer (g : Geom) (dist : Q) (cap_style : String)
  | parallel_offset (g : Geom) (dist : Q) (side : String)
  | substring (g : Geom) (a b : RExpr)
  | pointAtStart (g : Geom)
  | pointAtEnd (g : Geom)
  | segment (p q : Geom)
  | polygon (coords : List (Q × Q))
  | splicePolygon (from_left from_right to_left to_right via_left via_right : Geom)
deriving DecidableEq, Repr

/-! ## Data model (classes of Net.py) -/

/-- A row of a junction right-of-way table (`_Request`). -/
structure Request where
  index : Int
  response : String
  foes : String
  cont : String
  parentJunction : Option String
deriving DecidableEq, Repr

/-- Reference to a lane: parent edge id and lane index.  This is how the
source itself identifies lanes (`<edgeId>_<index>`); a live Python
reference is modelled by this pair. -/
structure LaneRef where
  edge : String
  idx : Int
deriving DecidableEq, Repr

/-- A lane marking descriptor (`_LaneMarking`). -/
structure LaneMarking where
  purpose : String
  alignment : Geom
  linewidth : Q
  color : String
  dashes : Q × Q
deriving DecidableEq, Repr

/-- One travel lane (`_Lane`).  `incoming_connections` and
`outgoing_connections` hold indices into the network connection list;
`requests` holds the right-of-way rows appended during linking. -/
structure Lane where
  id : String
  index : Int
  speed : Q
  allows : Allowance
  width : Q
  endOffset : Option String
  acceleration : String
  alignment : List (Q × Q)
  shape : Geom
  parentEdge : Option String
  stop_offsets : List (Q × Allowance)
  incoming_connections : List Nat
  outgoing_connections : List Nat
  requests : List Request
deriving DecidableEq, Repr

/-- A directed road segment (`_Edge`).  `from_junction`/`to_junction` are
the references resolved during linking (junction ids). -/
structure Edge where
  id : String
  function : String
  from_junction_id : Option String
  to_junction_id : Option String
  from_junction : Option String
  to_junction : Option String
  lanes : List Lane
  stop_offsets : List (Q × Allowance)
deriving DecidableEq, Repr

/-- A junction (`_Junction`).  `incLanes`/`intLanes` are the lane
references resolved during linking. -/
structure Junction where
  id : String
  type : String
  incLane_ids : List String
  intLane_ids : List String
  incLanes : List LaneRef
  intLanes : List LaneRef
  requests : List Request
  shape : Option Geom
deriving DecidableEq, Repr

/-- A directed lane-to-lane connection (`_Connection`).  The five
reference fields are resolved during linking. -/
structure Connection where
  from_edge_id : String
  to_edge_id : String
  from_edge : Option String
  to_edge : Option String
  from_lane_index : Int
  to_lane_index : Int
  from_lane : Option LaneRef
  to_lane : Option LaneRef
  via_id : Option String
  via_lane : Option LaneRef
  dir : String
  state : String
  shape : Option Geom
deriving DecidableEq, Repr

/-- The network state (`Net`): all edges, junctions and connections.
The Python dictionaries keyed by id are modelled as lists with
id-lookup; `Net.init` below inserts with replace-on-duplicate exactly
like a Python dict. -/
structure Net where
  edges : List Edge
  junctions : List Junction
  connections : List Connection
deriving DecidableEq, Repr

/-- The process-wide style configuration (the module globals
`LANE_MARKINGS_STYLE`, `PLOT_STOP_LINES` and
`STRIPE_WIDTH_SCALE_FACTOR`), passed explicitly. -/
structure Config where
  LANE_MARKINGS_STYLE : String
  PLOT_STOP_LINES : Bool
  STRIPE_WIDTH_SCALE_FACTOR : Q
deriving DecidableEq, Repr

def USA_STYLE : String := "USA"

def EUR_STYLE : String := "EUR"

def DEFAULT_LANE_WIDTH : Q := Q.norm 16 5

/-- Dictionary lookup `self.edges.get(i, None)`. -/
def findEdge (edges : List Edge) (i : String) : Option Edge :=
  edges.find? (fun e => e.id == i)

/-- Dictionary lookup `self.junctions.get(i, None)`. -/
def findJunction (junctions : List Junction) (i : String) : Option Junction :=
  junctions.find? (fun j => j.id == i)

/-! ## Lane and edge methods -/

/-- Python `_Edge.lane_count`. -/
def Edge.lane_count (e : Edge) : Nat := e.lanes.length

/-- Python `_Edge.get_lane`: the first lane with the given index, raising
IndexError when there is none. -/
def Edge.get_lane (e : Edge) (index : Int) : Except String Lane :=
  match e.lanes.find? (fun l => l.index == index) with
  | some l => .ok l
  | none => .error "IndexError: Edge contains no Lane with given index."

/-- Dereference the `parentEdge` object reference of a lane. -/
def Lane.parent (net : Net) (l : Lane) : Option Edge :=
  l.parentEdge.bind (fun i => findEdge net.edges i)

/-- Python `_Lane.lane_type`. -/
def Lane.lane_type (net : Net) (l : Lane) : String :=
  if l.allows.eqString "pedestrian" then
    match Lane.parent net l with
    | some e => if e.function = "crossing" then "crosswalk" else "pedestrian"
    | none => "pedestrian"
  else if l.allows.eqString "bicycle" then "bicycle"
  else if l.allows.eqString "ship" then "ship"
  else if l.allows.eqString "authority" then "authority"
  else if l.allows.eqString "none" then "none"
  else if !(l.allows.member "passenger") then "no_passenger"
  else "other"

/-- Python `_Lane.inverse_lane_index`, given the already dereferenced
parent edge. -/
def Lane.inverse_lane_index (e : Edge) (l : Lane) : Int :=
  (e.lane_count : Int) - l.index - 1

/-- The stop-offset declarations `get_stop_line_locations` starts from:
the lane own declarations if non-empty, else those of the parent edge. -/
def Lane.effective_stop_offsets (net : Net) (l : Lane) : List (Q × Allowance) :=
  if 0 < l.stop_offsets.length then l.stop_offsets
  else
    match Lane.parent net l with
    | some e => e.stop_offsets
    | none => []

/-- Python `_Lane.get_stop_line_locations`.  The source loop both
collects the offset values and accrues the Allowances; that is the map
plus the fold below. -/
def Lane.get_stop_line_locations (net : Net) (l : Lane) : List Q :=
  let stop_offsets := Lane.effective_stop_offsets net l
  let stop_line_locations := stop_offsets.map (fun so => so.1)
  let accrued_vClasses :=
    (stop_offsets.map (fun so => so.2)).foldl Allowance.union (Allowance.ofStrings "none" "")
  if !(accrued_vClasses.is_superset_of l.allows)
      && !(decide (Q.ofInt 0 ∈ stop_line_locations)) then
    stop_line_locations ++ [Q.ofInt 0]
  else stop_line_locations

/-- Python `_Lane._requires_stop_line`.  Dereferencing an unresolved
parent edge or to-junction raises (AttributeError on None). -/
def Lane.requires_stop_line (net : Net) (l : Lane) : Except String Bool :=
  match Lane.parent net l with
  | none => .error "AttributeError: NoneType has no attribute to_junction"
  | some e =>
    match e.to_junction.bind (fun i => findJunction net.junctions i) with
    | none => .error "AttributeError: NoneType has no attribute type"
    | some j =>
      if j.type ∈ (["internal", "zipper"] : List String) then .ok false
      else if j.type = "always_stop" then .ok true
      else .ok (l.requests.any (fun r => r.response.data.contains '1'))

/-! ## Claims C8, C5, C1 -/

/-- Classification required by claim C8, transcribed from the claim
text: a fixed-priority classification with the crosswalk test evaluated
before the generic pedestrian test. -/
def laneTypeClaim (edgeFunction : Option String) (a : Allowance) : String :=
  if a.eqString "pedestrian" = true ∧ edgeFunction = some "crossing" then "crosswalk"
  else if a.eqString "pedestrian" = true then "pedestrian"
  else if a.eqString "bicycle" = true then "bicycle"
  else if a.eqString "ship" = true then "ship"
  else if a.eqString "authority" = true then "authority"
  else if a.eqString "none" = true then "none"
  else if a.member "passenger" = false then "no_passenger"
  else "other"

/-- C8: for every Lane, `lane_type()` is the fixed-priority
classification over the lane Allowance and the parent Edge function,
with the crosswalk test evaluated before the generic pedestrian test. -/
theorem lane_type_matches_claim (net : Net) (l : Lane) :
    Lane.lane_type net l = laneTypeClaim ((Lane.parent net l).map Edge.function) l.allows := by
  unfold Lane.lane_type laneTypeClaim
  by_cases hped : l.allows.eqString "pedestrian" = true
  · cases hpe : Lane.parent net l with
    | none => simp [hped]
    | some e =>
      by_cases hcr : e.function = "crossing" <;> simp [hped, hcr]
  · simp only [hped, if_false, Bool.not_eq_true] at *
    by_cases h1 : l.allows.eqString "bicycle" = true <;>
    by_cases h2 : l.allows.eqString "ship" = true <;>
    by_cases h3 : l.allows.eqString "authority" = true <;>
    by_cases h4 : l.allows.eqString "none" = true <;>
    cases h5 : l.allows.member "passenger" <;>
    simp [hped, h1, h2, h3, h4, h5]

/-- Helper: the empty Allowance accrued from zero declarations fails the
superset test against any Allowance permitting some vocabulary class. -/
theorem none_not_superset_of_permissive (a : Allowance)
    (hany : vClassNames.any a.member = true) :
    (Allowance.ofStrings "none" "").is_superset_of a = false := by
  rw [List.any_eq_true] at hany
  obtain ⟨c, hc, hmem⟩ := hany
  simp only [Allowance.is_superset_of, List.all_eq_false]
  refine ⟨c, hc, ?_⟩
  have hnone : (Allowance.ofStrings "none" "").member c = false := by
    simp [Allowance.ofStrings, Allowance.member, splitClasses, strSplit, splitOnChar,
      String.mk]
  simp [hmem, hnone]

/-- C5: the stop-line location list is computed from the lane own
stop-offset declarations if non-empty, else the parent Edge ones; 0 is
appended whenever the accrued Allowance does not cover every class the
lane permits and no declaration already specifies offset 0; with zero
declarations the list is exactly the singleton 0 whenever the lane
permits any vocabulary class. -/
theorem stop_line_locations_match_claim (net : Net) (l : Lane) :
    ((((Lane.effective_stop_offsets net l).map (fun so => so.2)).foldl
          Allowance.union (Allowance.ofStrings "none" "") |>.is_superset_of l.allows) = false ∧
        Q.ofInt 0 ∉ (Lane.effective_stop_offsets net l).map (fun so => so.1) →
      Lane.get_stop_line_locations net l =
        (Lane.effective_stop_offsets net l).map (fun so => so.1) ++ [Q.ofInt 0]) ∧
    (Lane.effective_stop_offsets net l = [] ∧ vClassNames.any l.allows.member = true →
      Lane.get_stop_line_locations net l = [Q.ofInt 0]) := by
  constructor
  · intro h
    unfold Lane.get_stop_line_locations
    simp only [h.1, Bool.not_false, Bool.true_and, decide_eq_true_eq]
    simp [h.2]
  · intro h
    unfold Lane.get_stop_line_locations
    rw [h.1]
    simp only [List.map_nil, List.foldl_nil, List.nil_append]
    simp [none_not_superset_of_permissive l.allows h.2]

/-- C1: for every Lane whose parent Edge has a resolved destination
Junction, `requires_stop_line()` is false when the junction type is
internal or zipper regardless of the Request list, true unconditionally
for type always_stop, and otherwise true iff some Request in the lane
Request list has a character 1 somewhere in its response bitstring, i.e.
at the position of some movement this lane must yield to. -/
theorem requires_stop_line_matches_claim (net : Net) (l : Lane) (e : Edge) (j : Junction)
    (hpe : Lane.parent net l = some e)
    (hj : e.to_junction.bind (fun i => findJunction net.junctions i) = some j) :
    ((j.type = "internal" ∨ j.type = "zipper") →
        Lane.requires_stop_line net l = .ok false) ∧
    (j.type = "always_stop" → Lane.requires_stop_line net l = .ok true) ∧
    (¬(j.type = "internal" ∨ j.type = "zipper" ∨ j.type = "always_stop") →
        (Lane.requires_stop_line net l = .ok true ↔
          ∃ r ∈ l.requests, '1' ∈ r.response.data)) := by
  have hred : Lane.requires_stop_line net l =
      (if j.type ∈ (["internal", "zipper"] : List String) then .ok false
       else if j.type = "always_stop" then .ok true
       else .ok (l.requests.any (fun r => r.response.data.contains '1'))) := by
    simp only [Lane.requires_stop_line, hpe, hj]
  rw [hred]
  refine ⟨?_, ?_, ?_⟩
  · intro h
    rcases h with h | h <;> simp [h]
  · intro h
    by_cases hint : j.type ∈ (["internal", "zipper"] : List String)
    · simp [h] at hint
    · simp [hint, h]
  · intro h
    push_neg at h
    obtain ⟨h1, h2, h3⟩ := h
    have hint : j.type ∉ (["internal", "zipper"] : List String) := by
      simp [h1, h2]
    simp [hint, h3, List.any_eq_true, List.contains, List.elem_eq_mem]

/-! ## Concrete fixtures for witnesses -/

/-- A straight two-point centerline used by the fixtures. -/
def fixCoords : List (Q × Q) := [(Q.ofInt 0, Q.ofInt 0), (Q.ofInt 10, Q.ofInt 0)]

/-- A pedestrian-only lane with parent edge id E and no stop offsets. -/
def fixLane : Lane :=
  { id := "E_0", index := 0, speed := Q.ofInt 10,
    allows := Allowance.ofStrings "pedestrian" "",
    width := DEFAULT_LANE_WIDTH, endOffset := none, acceleration := "False",
    alignment := fixCoords,
    shape := Geom.buffer (Geom.lineString fixCoords)
      (Q.div DEFAULT_LANE_WIDTH (Q.ofInt 2)) "flat",
    parentEdge := some "E", stop_offsets := [],
    incoming_connections := [], outgoing_connections := [], requests := [] }

/-- The parent edge of `fixLane`, already linked to junction J. -/
def fixEdge : Edge :=
  { id := "E", function := "normal", from_junction_id := none,
    to_junction_id := some "J", from_junction := none, to_junction := some "J",
    lanes := [fixLane], stop_offsets := [] }

/-- An always-stop junction. -/
def fixJunction : Junction :=
  { id := "J", type := "always_stop", incLane_ids := [], intLane_ids := [],
    incLanes := [], intLanes := [], requests := [], shape := none }

/-- A small already-linked network containing the fixtures above. -/
def fixNet : Net :=
  { edges := [fixEdge], junctions := [fixJunction], connections := [] }

/-- Witness for C1 at a concrete input: the fixture lane feeds an
always-stop junction and needs a stop line. -/
theorem requires_stop_line_matches_claim_witness :
    Lane.parent fixNet fixLane = some fixEdge ∧
    fixEdge.to_junction.bind (fun i => findJunction fixNet.junctions i) = some fixJunction ∧
    fixJunction.type = "always_stop" ∧
    Lane.requires_stop_line fixNet fixLane = .ok true :=
  ⟨by decide, by decide, by decide,
    (requires_stop_line_matches_claim fixNet fixLane fixEdge fixJunction
      (by decide) (by decide)).2.1 (by decide)⟩

/-- Witness for C5 at a concrete input: the fixture lane has zero
effective stop-offset declarations and permits the pedestrian class, so
its stop-line location list is exactly the singleton 0. -/
theorem stop_line_locations_match_claim_witness :
    Lane.effective_stop_offsets fixNet fixLane = [] ∧
    vClassNames.any fixLane.allows.member = true ∧
    Lane.get_stop_line_locations fixNet fixLane = [Q.ofInt 0] :=
  ⟨by decide, by decide,
    (stop_line_locations_match_claim fixNet fixLane).2 ⟨by decide, by decide⟩⟩

/-- Decidable equality for `Except` values, used to evaluate the model on
concrete inputs. -/
instance exceptDecEq {ε α : Type} [DecidableEq ε] [DecidableEq α] :
    DecidableEq (Except ε α) := fun a b =>
  match a, b with
  | .ok x, .ok y =>
    if h : x = y then isTrue (by rw [h]) else isFalse (fun hh => h (Except.ok.inj hh))
  | .error x, .error y =>
    if h : x = y then isTrue (by rw [h]) else isFalse (fun hh => h (Except.error.inj hh))
  | .ok _, .error _ => isFalse (fun hh => Except.noConfusion hh)
  | .error _, .ok _ => isFalse (fun hh => Except.noConfusion hh)

/-! ## Lane marking rule engine -/

/-- The main (center or lane-boundary) marking of the USA style branch
of `_Lane._guess_lane_markings`.  Looking up the adjacent lane can raise
IndexError. -/
def Lane.usa_main_markings (cfg : Config) (e : Edge) (l : Lane) :
    Except String (List LaneMarking) :=
  if Lane.inverse_lane_index e l = 0 then
    .ok [{ purpose := "center",
           alignment := Geom.parallel_offset (Geom.lineString l.alignment)
             (Q.sub (Q.div l.width (Q.ofInt 2))
               (Q.mul (Q.norm 1 10) cfg.STRIPE_WIDTH_SCALE_FACTOR)) "left",
           linewidth := Q.mul (Q.norm 1 10) cfg.STRIPE_WIDTH_SCALE_FACTOR,
           color := "y", dashes := (Q.ofInt 100, Q.ofInt 0) }]
  else
    match e.get_lane (l.index + 1) with
    | .error msg => .error msg
    | .ok adjacent_lane =>
      .ok [{ purpose := "lane",
             alignment := Geom.parallel_offset (Geom.lineString l.alignment)
               (Q.div l.width (Q.ofInt 2)) "left",
             linewidth := Q.mul (Q.norm 1 10) cfg.STRIPE_WIDTH_SCALE_FACTOR,
             color := "w",
             dashes :=
               if l.allows.member "bicycle" ≠ adjacent_lane.allows.member "bicycle" then
                 (Q.ofInt 100, Q.ofInt 0)
               else if l.allows.member "passenger" ≠ adjacent_lane.allows.member "passenger" then
                 if l.allows.member "bicycle" then (Q.ofInt 1, Q.ofInt 3)
                 else (Q.ofInt 100, Q.ofInt 0)
               else (Q.ofInt 3, Q.ofInt 9) }]

/-- The main (center or lane-boundary) marking of the EUR style branch
of `_Lane._guess_lane_markings`; it differs from the USA branch only in
the center stripe offset and color. -/
def Lane.eur_main_markings (cfg : Config) (e : Edge) (l : Lane) :
    Except String (List LaneMarking) :=
  if Lane.inverse_lane_index e l = 0 then
    .ok [{ purpose := "center",
           alignment := Geom.parallel_offset (Geom.lineString l.alignment)
             (Q.div l.width (Q.ofInt 2)) "left",
           linewidth := Q.mul (Q.norm 1 10) cfg.STRIPE_WIDTH_SCALE_FACTOR,
           color := "w", dashes := (Q.ofInt 100, Q.ofInt 0) }]
  else
    match e.get_lane (l.index + 1) with
    | .error msg => .error msg
    | .ok adjacent_lane =>
      .ok [{ purpose := "lane",
             alignment := Geom.parallel_offset (Geom.lineString l.alignment)
               (Q.div l.width (Q.ofInt 2)) "left",
             linewidth := Q.mul (Q.norm 1 10) cfg.STRIPE_WIDTH_SCALE_FACTOR,
             color := "w",
             dashes :=
               if l.allows.member "bicycle" ≠ adjacent_lane.allows.member "bicycle" then
                 (Q.ofInt 100, Q.ofInt 0)
               else if l.allows.member "passenger" ≠ adjacent_lane.allows.member "passenger" then
                 if l.allows.member "bicycle" then (Q.ofInt 1, Q.ofInt 3)
                 else (Q.ofInt 100, Q.ofInt 0)
               else (Q.ofInt 3, Q.ofInt 9) }]

/-- The outer lane marking, appended at the right edge of lane index 0
unless the lane is pedestrian-permitted but not general-traffic (shared
verbatim by both style branches). -/
def Lane.outer_markings (cfg : Config) (l : Lane) : List LaneMarking :=
  if l.index = 0 ∧
      ¬(l.allows.member "pedestrian" = true ∧ l.allows.member "all" = false) then
    [{ purpose := "outer",
       alignment := Geom.parallel_offset (Geom.lineString l.alignment)
         (Q.div l.width (Q.ofInt 2)) "right",
       linewidth := Q.mul (Q.norm 1 10) cfg.STRIPE_WIDTH_SCALE_FACTOR,
       color := "w", dashes := (Q.ofInt 100, Q.ofInt 0) }]
  else []

/-- The jurisdiction-style markings of `_Lane._guess_lane_markings`
(the two `LANE_MARKINGS_STYLE` branches; no marking for an unrecognized
style). -/
def Lane.style_markings (cfg : Config) (e : Edge) (l : Lane) : Except String (List LaneMarking) :=
  if cfg.LANE_MARKINGS_STYLE = USA_STYLE then
    match Lane.usa_main_markings cfg e l with
    | .error msg => .error msg
    | .ok main => .ok (main ++ Lane.outer_markings cfg l)
  else if cfg.LANE_MARKINGS_STYLE = EUR_STYLE then
    match Lane.eur_main_markings cfg e l with
    | .error msg => .error msg
    | .ok main => .ok (main ++ Lane.outer_markings cfg l)
  else .ok []

/-- The stop-line markings appended by `_Lane._guess_lane_markings`: one
solid white transverse marking per stop-line location, built from a
1-unit slice of the centerline near the stop position offset to both
lane edges.  The shapely version guard (`hasattr(ops, "substring")`) is
modelled as satisfied. -/
def Lane.stop_line_markings (net : Net) (l : Lane) : List LaneMarking :=
  let slw := Q.norm 1 2
  (Lane.get_stop_line_locations net l).map (fun stop_line_location =>
    let pos := RExpr.sub (RExpr.sub (RExpr.length l.alignment) (RExpr.lit stop_line_location))
      (RExpr.lit (Q.div slw (Q.ofInt 2)))
    let end_cl := Geom.substring (Geom.lineString l.alignment)
      (RExpr.sub pos (RExpr.lit (Q.ofInt 1))) pos
    let end_left := Geom.parallel_offset end_cl (Q.div l.width (Q.ofInt 2)) "left"
    let end_right := Geom.parallel_offset end_cl (Q.div l.width (Q.ofInt 2)) "right"
    { purpose := "stopline",
      alignment := Geom.segment (Geom.pointAtEnd end_left) (Geom.pointAtStart end_right),
      linewidth := slw, color := "w", dashes := (Q.ofInt 100, Q.ofInt 0) })

/-- Python `_Lane._guess_lane_markings`: early exits for internal-edge,
ship and rail lanes, the crossing marking, then the style markings, then
the stop-line block guarded by the global toggle, the Allowance list
test and `_requires_stop_line` (evaluated in source order, with Python
short-circuiting). -/
def Lane.guess_lane_markings (cfg : Config) (net : Net) (l : Lane) :
    Except String (List LaneMarking) :=
  match Lane.parent net l with
  | none => .error "AttributeError: NoneType has no attribute function"
  | some e =>
    if e.function = "internal" ∨ l.allows.eqString "ship" = true ∨
        l.allows.eqString "rail" = true then
      .ok []
    else if e.function = "crossing" then
      .ok [{ purpose := "crossing", alignment := Geom.lineString l.alignment,
             linewidth := l.width, color := "w", dashes := (Q.norm 1 2, Q.norm 1 2) }]
    else
      match Lane.style_markings cfg e l with
      | .error msg => .error msg
      | .ok style_part =>
        if cfg.PLOT_STOP_LINES = true ∧ l.allows.eqString "pedestrian" = false ∧
            l.allows.eqString "ship" = false then
          match Lane.requires_stop_line net l with
          | .error msg => .error msg
          | .ok true => .ok (style_part ++ Lane.stop_line_markings net l)
          | .ok false => .ok style_part
        else .ok style_part

/-! ## Connection splice geometry -/

/-- Dereference a lane reference in the current network state. -/
def derefLane (net : Net) (r : LaneRef) : Option Lane :=
  (findEdge net.edges r.edge).bind (fun e => e.lanes.find? (fun l => l.index == r.idx))

/-- Python `_Connection._generate_shape`: raises ReferenceError unless
all three lane references are resolved; otherwise stitches the offset
curves of the three lanes into the splice polygon (the coordinate
stitching is folded into the symbolic constructor
`Geom.splicePolygon`). -/
def Connection.generate_shape (net : Net) (c : Connection) : Except String Geom :=
  match c.from_lane, c.to_lane, c.via_lane with
  | some fr, some tr, some vr =>
    match derefLane net fr, derefLane net tr, derefLane net vr with
    | some from_lane, some to_lane, some via_lane =>
      .ok (Geom.splicePolygon
        (Geom.parallel_offset (Geom.lineString from_lane.alignment)
          (Q.div from_lane.width (Q.ofInt 2)) "left")
        (Geom.parallel_offset (Geom.lineString from_lane.alignment)
          (Q.div from_lane.width (Q.ofInt 2)) "right")
        (Geom.parallel_offset (Geom.lineString to_lane.alignment)
          (Q.div to_lane.width (Q.ofInt 2)) "left")
        (Geom.parallel_offset (Geom.lineString to_lane.alignment)
          (Q.div to_lane.width (Q.ofInt 2)) "right")
        (Geom.parallel_offset (Geom.lineString via_lane.alignment)
          (Q.div from_lane.width (Q.ofInt 2)) "left")
        (Geom.parallel_offset (Geom.lineString via_lane.alignment)
          (Q.div from_lane.width (Q.ofInt 2)) "right"))
    | _, _, _ => .error "stale lane reference"
  | _, _, _ =>
    .error "ReferenceError: Valid reference to from-, to-, and via-lanes required to generate connection shape."

/-- C4: splice-polygon derivation raises, producing no geometry, whenever
any of the from-lane, to-lane or via-lane references is unresolved; in
particular for every connection that declares a via id whose via-lane is
unresolved. -/
theorem generate_shape_error_on_unresolved (net : Net) (c : Connection)
    (h : c.from_lane = none ∨ c.to_lane = none ∨ c.via_lane = none) :
    Connection.generate_shape net c =
      .error "ReferenceError: Valid reference to from-, to-, and via-lanes required to generate connection shape." := by
  unfold Connection.generate_shape
  rcases hf : c.from_lane with _ | fr <;> rcases ht : c.to_lane with _ | tr <;>
    rcases hv : c.via_lane with _ | vr <;> simp_all

/-- A connection declaring a via id whose lane references were never
resolved. -/
def fixCxnUnresolved : Connection :=
  { from_edge_id := "E", to_edge_id := "E2", from_edge := none, to_edge := none,
    from_lane_index := 0, to_lane_index := 0, from_lane := none, to_lane := none,
    via_id := some ":J_0_0", via_lane := none, dir := "s", state := "M",
    shape := none }

/-- Witness for C4 at a concrete input: a connection with a declared via
id but no resolved via-lane makes the derivation raise. -/
theorem generate_shape_error_on_unresolved_witness :
    fixCxnUnresolved.via_id = some ":J_0_0" ∧
    (fixCxnUnresolved.from_lane = none ∨ fixCxnUnresolved.to_lane = none ∨
      fixCxnUnresolved.via_lane = none) ∧
    Connection.generate_shape fixNet fixCxnUnresolved =
      .error "ReferenceError: Valid reference to from-, to-, and via-lanes required to generate connection shape." :=
  ⟨by decide, by decide,
    generate_shape_error_on_unresolved fixNet fixCxnUnresolved (by decide)⟩

/-- C9 (amended): every lane whose parent edge has function crossing and
whose Allowance is not exactly ship and not exactly rail is marked with
exactly one dashed white crossing marking following the lane centerline
at full lane width, for every style configuration. -/
theorem crossing_lane_markings (cfg : Config) (net : Net) (l : Lane) (e : Edge)
    (hpe : Lane.parent net l = some e)
    (hcr : e.function = "crossing")
    (hship : l.allows.eqString "ship" = false)
    (hrail : l.allows.eqString "rail" = false) :
    Lane.guess_lane_markings cfg net l =
      .ok [{ purpose := "crossing", alignment := Geom.lineString l.alignment,
             linewidth := l.width, color := "w",
             dashes := (Q.norm 1 2, Q.norm 1 2) }] := by
  simp [Lane.guess_lane_markings, hpe, hcr, hship, hrail]

/-- A ship-only lane sitting on a crossing-function edge. -/
def fixLaneShip : Lane :=
  { id := "EC_0", index := 0, speed := Q.ofInt 10,
    allows := Allowance.ofStrings "ship" "",
    width := DEFAULT_LANE_WIDTH, endOffset := none, acceleration := "False",
    alignment := fixCoords,
    shape := Geom.buffer (Geom.lineString fixCoords)
      (Q.div DEFAULT_LANE_WIDTH (Q.ofInt 2)) "flat",
    parentEdge := some "EC", stop_offsets := [],
    incoming_connections := [], outgoing_connections := [], requests := [] }

/-- A crossing-function edge owning the ship-only lane. -/
def fixEdgeCrossingShip : Edge :=
  { id := "EC", function := "crossing", from_junction_id := none,
    to_junction_id := none, from_junction := none, to_junction := none,
    lanes := [fixLaneShip], stop_offsets := [] }

def fixNetCrossingShip : Net :=
  { edges := [fixEdgeCrossingShip], junctions := [], connections := [] }

/-- The default style configuration (EUR style, stop lines on, scale 1). -/
def fixConfig : Config :=
  { LANE_MARKINGS_STYLE := EUR_STYLE, PLOT_STOP_LINES := true,
    STRIPE_WIDTH_SCALE_FACTOR := Q.ofInt 1 }

/-- Counterexample to C9 as stated: a ship-only lane on a
crossing-function edge produces zero markings, not exactly one crossing
marking. -/
theorem crossing_lane_markings_counterexample :
    (Lane.parent fixNetCrossingShip fixLaneShip).map Edge.function = some "crossing" ∧
    Lane.guess_lane_markings fixConfig fixNetCrossingShip fixLaneShip = .ok [] := by
  constructor <;> decide

/-- A pedestrian-only lane sitting on a crossing-function edge. -/
def fixLaneCross : Lane :=
  { id := "EP_0", index := 0, speed := Q.ofInt 10,
    allows := Allowance.ofStrings "pedestrian" "",
    width := DEFAULT_LANE_WIDTH, endOffset := none, acceleration := "False",
    alignment := fixCoords,
    shape := Geom.buffer (Geom.lineString fixCoords)
      (Q.div DEFAULT_LANE_WIDTH (Q.ofInt 2)) "flat",
    parentEdge := some "EP", stop_offsets := [],
    incoming_connections := [], outgoing_connections := [], requests := [] }

/-- A crossing-function edge owning the pedestrian-only lane. -/
def fixEdgeCross : Edge :=
  { id := "EP", function := "crossing", from_junction_id := none,
    to_junction_id := none, from_junction := none, to_junction := none,
    lanes := [fixLaneCross], stop_offsets := [] }

def fixNetCross : Net :=
  { edges := [fixEdgeCross], junctions := [], connections := [] }

/-- Witness for the amended C9 at a concrete input. -/
theorem crossing_lane_markings_witness :
    Lane.parent fixNetCross fixLaneCross = some fixEdgeCross ∧
    fixEdgeCross.function = "crossing" ∧
    Lane.guess_lane_markings fixConfig fixNetCross fixLaneCross =
      .ok [{ purpose := "crossing", alignment := Geom.lineString fixLaneCross.alignment,
             linewidth := fixLaneCross.width, color := "w",
             dashes := (Q.norm 1 2, Q.norm 1 2) }] :=
  ⟨by decide, by decide,
    crossing_lane_markings fixConfig fixNetCross fixLaneCross fixEdgeCross
      (by decide) (by decide) (by decide) (by decide)⟩

/-- Helper: the USA main markings are center or lane markings. -/
theorem usa_main_markings_no_stopline (cfg : Config) (e : Edge) (l : Lane)
    (main : List LaneMarking) (h : Lane.usa_main_markings cfg e l = .ok main) :
    ∀ m ∈ main, ¬(m.purpose == "stopline") = true := by
  intro m hm
  unfold Lane.usa_main_markings at h
  repeat' split at h
  all_goals
    first
    | exact absurd h (fun hh => Except.noConfusion hh)
    | (injection h with h; subst h; simp_all)

/-- Helper: the EUR main markings are center or lane markings. -/
theorem eur_main_markings_no_stopline (cfg : Config) (e : Edge) (l : Lane)
    (main : List LaneMarking) (h : Lane.eur_main_markings cfg e l = .ok main) :
    ∀ m ∈ main, ¬(m.purpose == "stopline") = true := by
  intro m hm
  unfold Lane.eur_main_markings at h
  repeat' split at h
  all_goals
    first
    | exact absurd h (fun hh => Except.noConfusion hh)
    | (injection h with h; subst h; simp_all)

/-- Helper: the outer markings are never stopline markings. -/
theorem outer_markings_no_stopline (cfg : Config) (l : Lane) :
    ∀ m ∈ Lane.outer_markings cfg l, ¬(m.purpose == "stopline") = true := by
  intro m hm
  unfold Lane.outer_markings at hm
  split at hm <;> simp_all

/-- Helper: the jurisdiction-style markings never include a stopline
marking. -/
theorem style_markings_filter_stopline (cfg : Config) (e : Edge) (l : Lane)
    (sm : List LaneMarking) (h : Lane.style_markings cfg e l = .ok sm) :
    sm.filter (fun m => m.purpose == "stopline") = [] := by
  rw [List.filter_eq_nil_iff]
  intro m hm
  unfold Lane.style_markings at h
  split at h
  · -- USA style
    split at h
    · exact absurd h (fun hh => Except.noConfusion hh)
    · rename_i main heq
      injection h with h
      subst h
      rw [List.mem_append] at hm
      rcases hm with hm | hm
      · exact usa_main_markings_no_stopline cfg e l main heq m hm
      · exact outer_markings_no_stopline cfg l m hm
  · split at h
    · -- EUR style
      split at h
      · exact absurd h (fun hh => Except.noConfusion hh)
      · rename_i main heq
        injection h with h
        subst h
        rw [List.mem_append] at hm
        rcases hm with hm | hm
        · exact eur_main_markings_no_stopline cfg e l main heq m hm
        · exact outer_markings_no_stopline cfg l m hm
    · -- unrecognized style
      injection h with h
      subst h
      simp at hm

/-- Helper: every stop-line marking passes the stopline filter. -/
theorem stop_line_markings_filter (net : Net) (l : Lane) :
    (Lane.stop_line_markings net l).filter (fun m => m.purpose == "stopline") =
      Lane.stop_line_markings net l := by
  apply List.filter_eq_self.mpr
  intro m hm
  unfold Lane.stop_line_markings at hm
  rw [List.mem_map] at hm
  obtain ⟨loc, _, rfl⟩ := hm
  rfl

/-- C7 (amended): marking derivation appends the stopline markings (one
solid white marking per derived stop-line location) if and only if
stop-line generation is enabled globally, `requires_stop_line()` is
true, the lane Allowance is not exactly the pedestrian class and not
exactly the ship class, and the derivation has not already returned
early (parent edge function internal or crossing, or an exactly-ship or
exactly-rail lane). -/
theorem stopline_markings_condition (cfg : Config) (net : Net) (l : Lane) (e : Edge)
    (ms : List LaneMarking)
    (hpe : Lane.parent net l = some e)
    (hok : Lane.guess_lane_markings cfg net l = .ok ms) :
    (ms.filter (fun m => m.purpose == "stopline") =
      if e.function ≠ "internal" ∧ e.function ≠ "crossing" ∧
          l.allows.eqString "ship" = false ∧ l.allows.eqString "rail" = false ∧
          cfg.PLOT_STOP_LINES = true ∧ l.allows.eqString "pedestrian" = false ∧
          Lane.requires_stop_line net l = .ok true then
        Lane.stop_line_markings net l
      else []) ∧
    (Lane.stop_line_markings net l).length = (Lane.get_stop_line_locations net l).length ∧
    (∀ m ∈ Lane.stop_line_markings net l,
      m.purpose = "stopline" ∧ m.color = "w" ∧ m.dashes = (Q.ofInt 100, Q.ofInt 0)) := by
  refine ⟨?_, ?_, ?_⟩
  · simp only [Lane.guess_lane_markings, hpe] at hok
    by_cases h1 : e.function = "internal" ∨ l.allows.eqString "ship" = true ∨
        l.allows.eqString "rail" = true
    · rw [if_pos h1] at hok
      injection hok with hok
      subst hok
      have hcond : ¬(e.function ≠ "internal" ∧ e.function ≠ "crossing" ∧
          l.allows.eqString "ship" = false ∧ l.allows.eqString "rail" = false ∧
          cfg.PLOT_STOP_LINES = true ∧ l.allows.eqString "pedestrian" = false ∧
          Lane.requires_stop_line net l = .ok true) := by
        rcases h1 with h | h | h <;> simp [h]
      simp [hcond]
    · rw [if_neg h1] at hok
      push_neg at h1
      obtain ⟨hint, hship, hrail⟩ := h1
      replace hship : l.allows.eqString "ship" = false := by simpa using hship
      replace hrail : l.allows.eqString "rail" = false := by simpa using hrail
      by_cases h2 : e.function = "crossing"
      · rw [if_pos h2] at hok
        injection hok with hok
        subst hok
        have hcond : ¬(e.function ≠ "internal" ∧ e.function ≠ "crossing" ∧
            l.allows.eqString "ship" = false ∧ l.allows.eqString "rail" = false ∧
            cfg.PLOT_STOP_LINES = true ∧ l.allows.eqString "pedestrian" = false ∧
            Lane.requires_stop_line net l = .ok true) := by
          simp [h2]
        rw [if_neg hcond]
        rfl
      · rw [if_neg h2] at hok
        cases hstyle : Lane.style_markings cfg e l with
        | error msg =>
          simp only [hstyle] at hok
          exact absurd hok (fun hh => Except.noConfusion hh)
        | ok sm =>
          simp only [hstyle] at hok
          have hsmf := style_markings_filter_stopline cfg e l sm hstyle
          by_cases h3 : cfg.PLOT_STOP_LINES = true ∧ l.allows.eqString "pedestrian" = false ∧
              l.allows.eqString "ship" = false
          · rw [if_pos h3] at hok
            cases hreq : Lane.requires_stop_line net l with
            | error msg =>
              simp only [hreq] at hok
              exact absurd hok (fun hh => Except.noConfusion hh)
            | ok b =>
              simp only [hreq] at hok
              cases b with
              | true =>
                injection hok with hok
                subst hok
                rw [List.filter_append, hsmf, stop_line_markings_filter, List.nil_append]
                rw [if_pos ⟨hint, h2, hship, hrail, h3.1, h3.2.1, rfl⟩]
              | false =>
                injection hok with hok
                subst hok
                rw [hsmf]
                rw [if_neg]
                intro hcond
                exact absurd hcond.2.2.2.2.2.2 (by simp)
          · rw [if_neg h3] at hok
            injection hok with hok
            subst hok
            rw [hsmf, if_neg]
            intro hcond
            exact h3 ⟨hcond.2.2.2.2.1, hcond.2.2.2.2.2.1, hship⟩
  · unfold Lane.stop_line_markings
    simp
  · intro m hm
    unfold Lane.stop_line_markings at hm
    rw [List.mem_map] at hm
    obtain ⟨loc, _, rfl⟩ := hm
    exact ⟨rfl, rfl, rfl⟩

/-- A lane permitting both pedestrian and passenger traffic. -/
def fixLaneMixed : Lane :=
  { id := "EM_0", index := 0, speed := Q.ofInt 10,
    allows := Allowance.ofStrings "pedestrian passenger" "",
    width := DEFAULT_LANE_WIDTH, endOffset := none, acceleration := "False",
    alignment := fixCoords,
    shape := Geom.buffer (Geom.lineString fixCoords)
      (Q.div DEFAULT_LANE_WIDTH (Q.ofInt 2)) "flat",
    parentEdge := some "EM", stop_offsets := [],
    incoming_connections := [], outgoing_connections := [], requests := [] }

/-- The parent edge of `fixLaneMixed`, feeding an always-stop junction. -/
def fixEdgeMixed : Edge :=
  { id := "EM", function := "normal", from_junction_id := none,
    to_junction_id := some "JM", from_junction := none, to_junction := some "JM",
    lanes := [fixLaneMixed], stop_offsets := [] }

def fixJunctionMixed : Junction :=
  { id := "JM", type := "always_stop", incLane_ids := [], intLane_ids := [],
    incLanes := [], intLanes := [], requests := [], shape := none }

def fixNetMixed : Net :=
  { edges := [fixEdgeMixed], junctions := [fixJunctionMixed], connections := [] }

/-- Counterexample to C7 as stated: a lane that permits pedestrian (and
passenger) traffic and must stop at an always-stop junction does receive
a stopline marking, because the source compares the Allowance for exact
equality with the pedestrian class instead of testing pedestrian
membership. -/
theorem stopline_markings_condition_counterexample :
    fixLaneMixed.allows.member "pedestrian" = true ∧
    Except.map (fun ms => ms.any (fun m => m.purpose == "stopline"))
        (Lane.guess_lane_markings fixConfig fixNetMixed fixLaneMixed) =
      Except.ok true := by
  constructor <;> decide

/-- A lane on an internal-function edge. -/
def fixLaneInternal : Lane :=
  { id := "EI_0", index := 0, speed := Q.ofInt 10,
    allows := Allowance.ofStrings "" "",
    width := DEFAULT_LANE_WIDTH, endOffset := none, acceleration := "False",
    alignment := fixCoords,
    shape := Geom.buffer (Geom.lineString fixCoords)
      (Q.div DEFAULT_LANE_WIDTH (Q.ofInt 2)) "flat",
    parentEdge := some "EI", stop_offsets := [],
    incoming_connections := [], outgoing_connections := [], requests := [] }

def fixEdgeInternal : Edge :=
  { id := "EI", function := "internal", from_junction_id := none,
    to_junction_id := none, from_junction := none, to_junction := none,
    lanes := [fixLaneInternal], stop_offsets := [] }

def fixNetInternal : Net :=
  { edges := [fixEdgeInternal], junctions := [], connections := [] }

/-- Witness for the amended C7 at a concrete input: an internal-function
edge produces no markings at all, so in particular no stopline markings,
and the stop-line marking descriptors are always solid white. -/
theorem stopline_markings_condition_witness :
    Lane.parent fixNetInternal fixLaneInternal = some fixEdgeInternal ∧
    Lane.guess_lane_markings fixConfig fixNetInternal fixLaneInternal = Except.ok [] ∧
    (∀ m ∈ Lane.stop_line_markings fixNetInternal fixLaneInternal,
      m.purpose = "stopline" ∧ m.color = "w" ∧ m.dashes = (Q.ofInt 100, Q.ofInt 0)) :=
  ⟨by decide, by decide,
    (stopline_markings_condition fixConfig fixNetInternal fixLaneInternal fixEdgeInternal []
      (by decide) (by decide)).2.2⟩

/-! ## Linking pass (`Net._link_objects`)

The pass is modelled as a state transformation on `Net`.  A raised
Python exception aborts `Net.__init__`, so the whole pass returns
`Except String Net`; the partially mutated state that a raising Python
run leaves behind is unobservable (the constructor never returns) and is
not modelled. -/

/-- Python `Net._get_lane`: split the lane id on its final
underscore-delimited component, convert that suffix with `int()`
(ValueError on failure), look up the edge in the edge dictionary (a
missing edge yields None), and fetch the lane on the edge
(`_Edge.get_lane` raises IndexError when the edge has no lane with the
parsed index). -/
def Net.get_lane (edges : List Edge) (lane_id : String) : Except String (Option LaneRef) :=
  match parseInt ((strSplit lane_id '_').getLastD "") with
  | none => .error ("ValueError: invalid literal for int: " ++ lane_id)
  | some lane_num =>
    match findEdge edges (joinSep "_" (strSplit lane_id '_').dropLast) with
    | none => .ok none
    | some e =>
      if e.lanes.any (fun l => l.index == lane_num) then
        .ok (some ⟨joinSep "_" (strSplit lane_id '_').dropLast, lane_num⟩)
      else .error "IndexError: Edge contains no Lane with given index."

/-- Indices of the connections satisfying a predicate, in list order. -/
def cxnIndicesWhere (p : Connection → Bool) : Nat → List Connection → List Nat
  | _, [] => []
  | i, c :: cs =>
    if p c then i :: cxnIndicesWhere p (i + 1) cs
    else cxnIndicesWhere p (i + 1) cs

/-- Python `Net._get_connections_from_lane` (as connection indices). -/
def Net.get_connections_from_lane (connections : List Connection) (lane_id : String) : List Nat :=
  cxnIndicesWhere (fun c => c.from_edge_id ++ "_" ++ toString c.from_lane_index == lane_id)
    0 connections

/-- Python `Net._get_connections_to_lane` (as connection indices). -/
def Net.get_connections_to_lane (connections : List Connection) (lane_id : String) : List Nat :=
  cxnIndicesWhere (fun c => c.to_edge_id ++ "_" ++ toString c.to_lane_index == lane_id)
    0 connections

/-- Python `_Junction.get_request_by_index`. -/
def Junction.get_request_by_index (j : Junction) (index : Nat) : Except String Request :=
  match j.requests.find? (fun r => r.index == (index : Int)) with
  | some r => .ok r
  | none =>
    .error ("IndexError: Junction " ++ j.id ++ " has no request with index " ++ toString index)

/-- Python `_Junction.get_request_by_int_lane` (the ValueError from
`list.index` is re-raised as IndexError). -/
def Junction.get_request_by_int_lane (j : Junction) (lane_id : String) : Except String Request :=
  match j.intLane_ids.findIdx? (fun i => i == lane_id) with
  | none => .error ("IndexError: Junction " ++ j.id ++ " does not include lane " ++ lane_id)
  | some index => Junction.get_request_by_index j index

/-- Update the first lane with the given index (the lane
`_Edge.get_lane` aliases). -/
def updateLaneInLanes (idx : Int) (f : Lane → Lane) : List Lane → List Lane
  | [] => []
  | l :: ls =>
    match l.index == idx with
    | true => f l :: ls
    | false => l :: updateLaneInLanes idx f ls

/-- Update the first edge with the given id (the edge the id lookup
aliases). -/
def updateEdgeInEdges (eid : String) (g : Edge → Edge) : List Edge → List Edge
  | [] => []
  | e :: es =>
    match e.id == eid with
    | true => g e :: es
    | false => e :: updateEdgeInEdges eid g es

/-- Apply a mutation to the lane a reference points at. -/
def Net.updateLane (net : Net) (r : LaneRef) (f : Lane → Lane) : Net :=
  { net with
      edges := updateEdgeInEdges r.edge
        (fun e => { e with lanes := updateLaneInLanes r.idx f e.lanes }) net.edges }

/-- Update the list element at a position. -/
def updateListAt {α : Type} (f : α → α) : Nat → List α → List α
  | _, [] => []
  | 0, x :: xs => f x :: xs
  | k + 1, x :: xs => x :: updateListAt f k xs

/-- Apply a mutation to the junction at a position. -/
def Net.updateJunctionAt (net : Net) (k : Nat) (f : Junction → Junction) : Net :=
  { net with junctions := updateListAt f k net.junctions }

/-- Python `self.junctions.get(i, None)` keyed by an optional id, as used
for the edge junction references. -/
def jget (junctions : List Junction) (oid : Option String) : Option String :=
  oid.bind (fun i => if junctions.any (fun j => j.id == i) then some i else none)

/-- Linking step 1: resolve each edge from/to junction id. -/
def Net.link_edges (net : Net) : Net :=
  { net with edges := net.edges.map (fun e =>
      { e with from_junction := jget net.junctions e.from_junction_id,
               to_junction := jget net.junctions e.to_junction_id }) }

/-- Resolve a list of lane ids, silently skipping ids whose edge does not
resolve (`incLane is not None` in the source) and propagating the
exceptions `Net._get_lane` raises. -/
def Net.resolveLaneIds (net : Net) : List String → Except String (List LaneRef)
  | [] => .ok []
  | i :: is =>
    match Net.get_lane net.edges i with
    | .error msg => .error msg
    | .ok none => Net.resolveLaneIds net is
    | .ok (some r) =>
      match Net.resolveLaneIds net is with
      | .error msg => .error msg
      | .ok rest => .ok (r :: rest)

/-- The one-level-deeper request search of `Net._link_objects` (the loop
over `cxns_internal`); the inner `get_request_by_int_lane` call is not
wrapped in try/except, so its IndexError propagates, as does the
ValueError-turned-IndexError raised when the inner via id is None. -/
def Net.fallback_requests (j : Junction) (connections : List Connection) :
    List Nat → Except String (List Request)
  | [] => .ok []
  | ci :: cis =>
    match connections[ci]? with
    | none => Net.fallback_requests j connections cis
    | some cxni =>
      match cxni.via_id with
      | none => .error ("IndexError: Junction " ++ j.id ++ " does not include lane None")
      | some v =>
        match Junction.get_request_by_int_lane j v with
        | .error msg => .error msg
        | .ok req =>
          match Net.fallback_requests j connections cis with
          | .error msg => .error msg
          | .ok rest => .ok (req :: rest)

/-- The requests discovered for one via id: the direct lookup, falling
back to the one-level-deeper search when it raises IndexError. -/
def Net.requests_for_via (net : Net) (j : Junction) (via : String) :
    Except String (List Request) :=
  match Junction.get_request_by_int_lane j via with
  | .ok req => .ok [req]
  | .error _ =>
    Net.fallback_requests j net.connections (Net.get_connections_from_lane net.connections via)

/-- The requests contributed by one outgoing connection (none when the
connection declares no via id). -/
def Net.requests_for_cxn (net : Net) (j : Junction) (ci : Nat) :
    Except String (List Request) :=
  match net.connections[ci]? with
  | none => .ok []
  | some cxn =>
    match cxn.via_id with
    | none => .ok []
    | some v => Net.requests_for_via net j v

/-- The requests appended to a lane: one batch per outgoing connection,
in connection order. -/
def Net.gather_requests (net : Net) (j : Junction) : List Nat → Except String (List Request)
  | [] => .ok []
  | ci :: cis =>
    match Net.requests_for_cxn net j ci with
    | .error msg => .error msg
    | .ok reqs1 =>
      match Net.gather_requests net j cis with
      | .error msg => .error msg
      | .ok rest => .ok (reqs1 ++ rest)

/-- Linking work done for one lane of `junction.incLanes`: assign the
incoming/outgoing connection lists and append the discovered requests. -/
def Net.process_inc_lane (net : Net) (k : Nat) (r : LaneRef) : Except String Net :=
  match net.junctions[k]?, derefLane net r with
  | some j, some l =>
    match Net.gather_requests net j
        (Net.get_connections_from_lane net.connections l.id) with
    | .error msg => .error msg
    | .ok reqs =>
      .ok (Net.updateLane net r (fun lane =>
        { lane with
          incoming_connections := Net.get_connections_to_lane net.connections l.id,
          outgoing_connections := Net.get_connections_from_lane net.connections l.id,
          requests := lane.requests ++ reqs }))
  | _, _ => .ok net

/-- Process every lane of `junction.incLanes` in order. -/
def Net.process_inc_lanes (net : Net) (k : Nat) : List LaneRef → Except String Net
  | [] => .ok net
  | r :: rs =>
    match Net.process_inc_lane net k r with
    | .error msg => .error msg
    | .ok net1 => Net.process_inc_lanes net1 k rs

/-- Append the resolved incoming and internal lane references to the
junction at one position. -/
def Net.append_junction_lanes (net : Net) (k : Nat) (incRefs intRefs : List LaneRef) : Net :=
  Net.updateJunctionAt
    (Net.updateJunctionAt net k (fun jn => { jn with incLanes := jn.incLanes ++ incRefs }))
    k (fun jn => { jn with intLanes := jn.intLanes ++ intRefs })

/-- Linking step 2 for the junction at one position: skip internal
junctions, append the resolved incoming and internal lanes, then link
connections and requests to the lanes of the current `incLanes` list. -/
def Net.process_junction (net : Net) (k : Nat) : Except String Net :=
  match net.junctions[k]? with
  | none => .ok net
  | some j =>
    if j.type == "internal" then .ok net
    else
      match Net.resolveLaneIds net j.incLane_ids with
      | .error msg => .error msg
      | .ok incRefs =>
        match Net.resolveLaneIds net j.intLane_ids with
        | .error msg => .error msg
        | .ok intRefs =>
          Net.process_inc_lanes (Net.append_junction_lanes net k incRefs intRefs) k
            ((((Net.append_junction_lanes net k incRefs intRefs).junctions[k]?).map
              Junction.incLanes).getD [])

/-- Linking step 2: the loop over all junctions. -/
def Net.process_junctions (net : Net) : List Nat → Except String Net
  | [] => .ok net
  | k :: ks =>
    match Net.process_junction net k with
    | .error msg => .error msg
    | .ok net1 => Net.process_junctions net1 ks

/-- The via-lane resolution of linking step 3 (left untouched when no via
id is declared). -/
def Net.resolve_via (edges : List Edge) (c : Connection) : Except String (Option LaneRef) :=
  match c.via_id with
  | some v => Net.get_lane edges v
  | none => .ok c.via_lane

/-- The from/to lane resolution of linking step 3: left untouched when
the edge id does not resolve, `_Edge.get_lane` (IndexError on a missing
index) otherwise. -/
def Net.resolve_lane_on_edge (edges : List Edge) (eid : String) (idx : Int)
    (old : Option LaneRef) : Except String (Option LaneRef) :=
  match findEdge edges eid with
  | none => .ok old
  | some e =>
    if e.lanes.any (fun l => l.index == idx) then .ok (some ⟨e.id, idx⟩)
    else .error "IndexError: Edge contains no Lane with given index."

/-- Linking step 3 for a single connection. -/
def Net.link_connection (edges : List Edge) (c : Connection) : Except String Connection :=
  match Net.resolve_via edges c with
  | .error msg => .error msg
  | .ok via_lane =>
    match Net.resolve_lane_on_edge edges c.from_edge_id c.from_lane_index c.from_lane with
    | .error msg => .error msg
    | .ok from_lane =>
      match Net.resolve_lane_on_edge edges c.to_edge_id c.to_lane_index c.to_lane with
      | .error msg => .error msg
      | .ok to_lane =>
        .ok { c with via_lane := via_lane,
                     from_edge := (findEdge edges c.from_edge_id).map Edge.id,
                     from_lane := from_lane,
                     to_edge := (findEdge edges c.to_edge_id).map Edge.id,
                     to_lane := to_lane }

/-- Linking step 3: the loop over all connections. -/
def Net.link_connections_list (edges : List Edge) : List Connection → Except String (List Connection)
  | [] => .ok []
  | c :: cs =>
    match Net.link_connection edges c with
    | .error msg => .error msg
    | .ok c1 =>
      match Net.link_connections_list edges cs with
      | .error msg => .error msg
      | .ok rest => .ok (c1 :: rest)

/-- Python `Net._link_objects`: the three linking steps in source
order. -/
def Net.link_objects (net : Net) : Except String Net :=
  match Net.process_junctions (Net.link_edges net)
      (List.range (Net.link_edges net).junctions.length) with
  | .error msg => .error msg
  | .ok net2 =>
    match Net.link_connections_list net2.edges net2.connections with
    | .error msg => .error msg
    | .ok cxns => .ok { net2 with connections := cxns }

/-! ## Construction (`Net.__init__`)

The document has already been parsed into elements (tag, attribute
mapping, children), the contract of the out-of-scope record-ingestion
collaborator.  Required attributes raise KeyError when absent and the
numeric conversions raise ValueError on malformed input, both modelled
with `Except`.  Loading of additional files is an out-of-scope
collaborator and is not modelled. -/

/-- A parsed document element: tag, attributes, children. -/
inductive XmlElem where
  | mk (tag : String) (attrib : List (String × String)) (children : List XmlElem)

def XmlElem.tag : XmlElem → String
  | .mk t _ _ => t

def XmlElem.attrib : XmlElem → List (String × String)
  | .mk _ a _ => a

def XmlElem.children : XmlElem → List XmlElem
  | .mk _ _ c => c

/-- Python `attrib[k] if "k" in attrib else ...` lookup. -/
def lookupAttr (attrib : List (String × String)) (k : String) : Option String :=
  (attrib.find? (fun kv => kv.1 == k)).map (fun kv => kv.2)

/-- Python `attrib[k]`: KeyError when the attribute is missing. -/
def requireAttr (attrib : List (String × String)) (k : String) : Except String String :=
  match lookupAttr attrib k with
  | some v => .ok v
  | none => .error ("KeyError: " ++ k)

/-- Python `float(s)` with its ValueError. -/
def parseFloatE (s : String) : Except String Q :=
  match parseQ s with
  | some q => .ok q
  | none => .error ("ValueError: could not convert string to float: " ++ s)

/-- Python `int(s)` with its ValueError. -/
def parseIntE (s : String) : Except String Int :=
  match parseInt s with
  | some n => .ok n
  | none => .error ("ValueError: invalid literal for int: " ++ s)

/-- One "x,y" coordinate pair. -/
def parsePoint (s : String) : Except String (Q × Q) :=
  match strSplit s ',' with
  | [xs, ys] =>
    match parseQ xs, parseQ ys with
    | some x, some y => .ok (x, y)
    | _, _ => .error ("ValueError: could not convert string to float: " ++ s)
  | _ => .error ("ValueError: malformed coordinate: " ++ s)

/-- A space-delimited "x1,y1 x2,y2 ..." shape attribute. -/
def parseCoords (s : String) : Except String (List (Q × Q)) :=
  let rec go : List String → Except String (List (Q × Q))
    | [] => .ok []
    | xy :: rest =>
      match parsePoint xy with
      | .error msg => .error msg
      | .ok p =>
        match go rest with
        | .error msg => .error msg
        | .ok ps => .ok (p :: ps)
  go (strSplit s ' ')

/-- Python `_Edge.__init__`. -/
def Edge.fromAttrib (attrib : List (String × String)) : Except String Edge :=
  match requireAttr attrib "id" with
  | .error msg => .error msg
  | .ok id =>
    .ok { id := id,
          function := (lookupAttr attrib "function").getD "normal",
          from_junction_id := lookupAttr attrib "from",
          to_junction_id := lookupAttr attrib "to",
          from_junction := none, to_junction := none,
          lanes := [], stop_offsets := [] }

/-- Python `_Lane.__init__`. -/
def Lane.fromAttrib (attrib : List (String × String)) : Except String Lane := do
  let id ← requireAttr attrib "id"
  let index ← parseIntE (← requireAttr attrib "index")
  let speed ← parseFloatE (← requireAttr attrib "speed")
  let width ← match lookupAttr attrib "width" with
    | some w => parseFloatE w
    | none => pure DEFAULT_LANE_WIDTH
  let coords ← parseCoords (← requireAttr attrib "shape")
  pure { id := id, index := index, speed := speed,
         allows := Allowance.ofStrings ((lookupAttr attrib "allow").getD "")
           ((lookupAttr attrib "disallow").getD ""),
         width := width,
         endOffset := lookupAttr attrib "endOffset",
         acceleration := (lookupAttr attrib "acceleration").getD "False",
         alignment := coords,
         shape := Geom.buffer (Geom.lineString coords) (Q.div width (Q.ofInt 2)) "flat",
         parentEdge := none, stop_offsets := [],
         incoming_connections := [], outgoing_connections := [], requests := [] }

/-- Python `append_stop_offset` (shared by `_Edge` and `_Lane`). -/
def stopOffsetFromAttrib (attrib : List (String × String)) : Except String (Q × Allowance) := do
  let value ← parseFloatE (← requireAttr attrib "value")
  pure (value, Allowance.ofStrings ((lookupAttr attrib "vClasses").getD "")
    ((lookupAttr attrib "exceptions").getD ""))

/-- Python `_Request.__init__`. -/
def Request.fromAttrib (attrib : List (String × String)) : Except String Request := do
  let index ← parseIntE (← requireAttr attrib "index")
  let response ← requireAttr attrib "response"
  let foes ← requireAttr attrib "foes"
  let cont ← requireAttr attrib "cont"
  pure { index := index, response := response, foes := foes, cont := cont,
         parentJunction := none }

/-- Python `_Junction.__init__`. -/
def Junction.fromAttrib (attrib : List (String × String)) : Except String Junction := do
  let id ← requireAttr attrib "id"
  let type ← requireAttr attrib "type"
  let incS ← requireAttr attrib "incLanes"
  let intS ← requireAttr attrib "intLanes"
  let shape ← match lookupAttr attrib "shape" with
    | some s => do
      let coords ← parseCoords s
      pure (if 2 < coords.length then some (Geom.polygon coords) else none)
    | none => pure none
  pure { id := id, type := type,
         incLane_ids := if incS = "" then [] else strSplit incS ' ',
         intLane_ids := if intS = "" then [] else strSplit intS ' ',
         incLanes := [], intLanes := [], requests := [], shape := shape }

/-- Python `_Connection.__init__`. -/
def Connection.fromAttrib (attrib : List (String × String)) : Except String Connection := do
  let from_edge_id ← requireAttr attrib "from"
  let to_edge_id ← requireAttr attrib "to"
  let from_lane_index ← parseIntE (← requireAttr attrib "fromLane")
  let to_lane_index ← parseIntE (← requireAttr attrib "toLane")
  let dir ← requireAttr attrib "dir"
  let state ← requireAttr attrib "state"
  let shape ← match lookupAttr attrib "shape" with
    | some s => do
      let coords ← parseCoords s
      pure (some (Geom.lineString coords))
    | none => pure none
  pure { from_edge_id := from_edge_id, to_edge_id := to_edge_id,
         from_edge := none, to_edge := none,
         from_lane_index := from_lane_index, to_lane_index := to_lane_index,
         from_lane := none, to_lane := none,
         via_id := lookupAttr attrib "via", via_lane := none,
         dir := dir, state := state, shape := shape }

/-- The `stopOffset` children of a lane element. -/
def Lane.withStopOffsets (lane : Lane) : List XmlElem → Except String Lane
  | [] => .ok lane
  | c :: rest =>
    if c.tag = "stopOffset" then
      match stopOffsetFromAttrib c.attrib with
      | .error msg => .error msg
      | .ok so =>
        Lane.withStopOffsets { lane with stop_offsets := lane.stop_offsets ++ [so] } rest
    else Lane.withStopOffsets lane rest

/-- The `stopOffset` and `lane` children of an edge element;
`append_lane` sets the lane parentEdge back-reference. -/
def Edge.processChildren (edge : Edge) : List XmlElem → Except String Edge
  | [] => .ok edge
  | c :: rest =>
    if c.tag = "stopOffset" then
      match stopOffsetFromAttrib c.attrib with
      | .error msg => .error msg
      | .ok so =>
        Edge.processChildren { edge with stop_offsets := edge.stop_offsets ++ [so] } rest
    else if c.tag = "lane" then
      match Lane.fromAttrib c.attrib with
      | .error msg => .error msg
      | .ok lane0 =>
        match Lane.withStopOffsets lane0 c.children with
        | .error msg => .error msg
        | .ok lane =>
          Edge.processChildren
            { edge with lanes := edge.lanes ++ [{ lane with parentEdge := some edge.id }] }
            rest
    else Edge.processChildren edge rest

/-- The `request` children of a junction element; `append_request` sets
the request parentJunction back-reference. -/
def Junction.processChildren (junction : Junction) : List XmlElem → Except String Junction
  | [] => .ok junction
  | c :: rest =>
    if c.tag = "request" then
      match Request.fromAttrib c.attrib with
      | .error msg => .error msg
      | .ok req =>
        Junction.processChildren
          { junction with
              requests := junction.requests ++ [{ req with parentJunction := some junction.id }] }
          rest
    else Junction.processChildren junction rest

/-- Python dict assignment `self.edges[edge.id] = edge`: replace the
first stored edge with the same id, else append. -/
def insertEdgeDict : List Edge → Edge → List Edge
  | [], e => [e]
  | x :: xs, e => if x.id == e.id then e :: xs else x :: insertEdgeDict xs e

/-- Python dict assignment `self.junctions[junction.id] = junction`. -/
def insertJunctionDict : List Junction → Junction → List Junction
  | [], j => [j]
  | x :: xs, j => if x.id == j.id then j :: xs else x :: insertJunctionDict xs j

/-- The construction loop of `Net.__init__` over the document elements:
edge records whose function attribute is "walkingarea" are skipped
entirely, all other recognized records are constructed and stored. -/
def Net.process_objects (net : Net) : List XmlElem → Except String Net
  | [] => .ok net
  | obj :: rest =>
    if obj.tag = "edge" then
      if lookupAttr obj.attrib "function" = some "walkingarea" then
        Net.process_objects net rest
      else
        match Edge.fromAttrib obj.attrib with
        | .error msg => .error msg
        | .ok e0 =>
          match Edge.processChildren e0 obj.children with
          | .error msg => .error msg
          | .ok e =>
            Net.process_objects { net with edges := insertEdgeDict net.edges e } rest
    else if obj.tag = "junction" then
      match Junction.fromAttrib obj.attrib with
      | .error msg => .error msg
      | .ok j0 =>
        match Junction.processChildren j0 obj.children with
        | .error msg => .error msg
        | .ok j =>
          Net.process_objects { net with junctions := insertJunctionDict net.junctions j } rest
    else if obj.tag = "connection" then
      match Connection.fromAttrib obj.attrib with
      | .error msg => .error msg
      | .ok c =>
        Net.process_objects { net with connections := net.connections ++ [c] } rest
    else Net.process_objects net rest

/-- Python `Net.__init__` (without the out-of-scope additional files):
construct all objects from the records, then run the linking pass
once. -/
def Net.build (objects : List XmlElem) : Except String Net :=
  match Net.process_objects { edges := [], junctions := [], connections := [] } objects with
  | .error msg => .error msg
  | .ok net => Net.link_objects net

/-! ## Claim C3 -/

/-- C3 (amended): during lane-id resolution, an edge id that does not
resolve is treated as absent (the lookup yields None and the id is
skipped or the reference left unset), but a lane id whose edge exists
while the lane index does not raises IndexError, and a lane id whose
final underscore-delimited suffix is not an integer raises ValueError;
these exceptions propagate out of the linking pass. -/
theorem lane_resolution_amended :
    (∀ (edges : List Edge) (lane_id : String) (n : Int),
      parseInt ((strSplit lane_id '_').getLastD "") = some n →
      findEdge edges (joinSep "_" (strSplit lane_id '_').dropLast) = none →
      Net.get_lane edges lane_id = .ok none) ∧
    (∀ (edges : List Edge) (lane_id : String) (n : Int) (e : Edge),
      parseInt ((strSplit lane_id '_').getLastD "") = some n →
      findEdge edges (joinSep "_" (strSplit lane_id '_').dropLast) = some e →
      e.lanes.any (fun l => l.index == n) = false →
      Net.get_lane edges lane_id =
        .error "IndexError: Edge contains no Lane with given index.") ∧
    (∀ (edges : List Edge) (lane_id : String),
      parseInt ((strSplit lane_id '_').getLastD "") = none →
      Net.get_lane edges lane_id =
        .error ("ValueError: invalid literal for int: " ++ lane_id)) := by
  refine ⟨?_, ?_, ?_⟩
  · intro edges lane_id n h1 h2
    simp only [Net.get_lane, h1, h2]
  · intro edges lane_id n e h1 h2 h3
    simp only [Net.get_lane, h1, h2, h3, Bool.false_eq_true, if_false, ite_false]
  · intro edges lane_id h1
    simp only [Net.get_lane, h1]

/-- A junction listing an incoming lane id whose edge exists but whose
lane index does not. -/
def fixJunctionBadInc : Junction :=
  { id := "JB", type := "priority", incLane_ids := ["E_5"], intLane_ids := [],
    incLanes := [], intLanes := [], requests := [], shape := none }

def fixNetBadInc : Net :=
  { edges := [fixEdge], junctions := [fixJunctionBadInc], connections := [] }

/-- Counterexample to C3 as stated: resolving the incoming-lane id E_5,
whose edge E exists but whose lane index 5 does not, makes the linking
pass itself raise IndexError instead of skipping the id. -/
theorem link_objects_raises_counterexample :
    fixNetBadInc.junctions = [fixJunctionBadInc] ∧
    fixJunctionBadInc.incLane_ids = ["E_5"] ∧
    findEdge fixNetBadInc.edges "E" = some fixEdge ∧
    fixEdge.lanes.any (fun l => l.index == (5 : Int)) = false ∧
    Net.link_objects fixNetBadInc =
      .error "IndexError: Edge contains no Lane with given index." := by
  refine ⟨?_, ?_, ?_, ?_, ?_⟩ <;> decide

/-- Witness for the amended C3 at concrete inputs: a missing edge id is
skipped but a missing lane index on an existing edge raises. -/
theorem lane_resolution_amended_witness :
    parseInt ((strSplit "X_0" '_').getLastD "") = some 0 ∧
    findEdge [fixEdge] (joinSep "_" (strSplit "X_0" '_').dropLast) = none ∧
    Net.get_lane [fixEdge] "X_0" = .ok none ∧
    parseInt ((strSplit "E_5" '_').getLastD "") = some 5 ∧
    findEdge [fixEdge] (joinSep "_" (strSplit "E_5" '_').dropLast) = some fixEdge ∧
    fixEdge.lanes.any (fun l => l.index == (5 : Int)) = false ∧
    Net.get_lane [fixEdge] "E_5" =
      .error "IndexError: Edge contains no Lane with given index." :=
  ⟨by decide, by decide,
    lane_resolution_amended.1 [fixEdge] "X_0" 0 (by decide) (by decide),
    by decide, by decide, by decide,
    lane_resolution_amended.2.1 [fixEdge] "E_5" 5 fixEdge (by decide) (by decide) (by decide)⟩

/-! ## The immutable core of a network state

`strip` erases all link-state (resolved references, connection lists,
request lists); the linking pass never changes the stripped value.
`scrub` erases only the append-accumulated state (junction lane
reference lists and lane request lists). -/

def Lane.strip (l : Lane) : Lane :=
  { l with incoming_connections := [], outgoing_connections := [], requests := [] }

def Edge.strip (e : Edge) : Edge :=
  { e with from_junction := none, to_junction := none, lanes := e.lanes.map Lane.strip }

def Junction.strip (j : Junction) : Junction :=
  { j with incLanes := [], intLanes := [] }

def Connection.strip (c : Connection) : Connection :=
  { c with from_edge := none, to_edge := none, from_lane := none, to_lane := none,
           via_lane := none }

def Net.strip (net : Net) : Net :=
  { edges := net.edges.map Edge.strip, junctions := net.junctions.map Junction.strip,
    connections := net.connections.map Connection.strip }

def Lane.scrub (l : Lane) : Lane := { l with requests := [] }

def Edge.scrub (e : Edge) : Edge := { e with lanes := e.lanes.map Lane.scrub }

def Junction.scrub (j : Junction) : Junction := { j with incLanes := [], intLanes := [] }

def Net.scrub (net : Net) : Net :=
  { edges := net.edges.map Edge.scrub, junctions := net.junctions.map Junction.scrub,
    connections := net.connections }

/-- A lane mutation that touches only link-state fields preserves the
stripped lane. -/
theorem lane_strip_update (l : Lane) (a b : List Nat) (c : List Request) :
    Lane.strip { l with incoming_connections := a, outgoing_connections := b,
                        requests := c } = Lane.strip l := rfl

/-- Updating one lane with a strip-preserving mutation preserves the
stripped lane list. -/
theorem updateLaneInLanes_strip (idx : Int) (f : Lane → Lane)
    (hf : ∀ l, Lane.strip (f l) = Lane.strip l) (ls : List Lane) :
    (updateLaneInLanes idx f ls).map Lane.strip = ls.map Lane.strip := by
  induction ls with
  | nil => rfl
  | cons l ls ih =>
    unfold updateLaneInLanes
    by_cases h : (l.index == idx) = true <;> simp [h, hf, ih]

/-- Updating one edge with a strip-preserving mutation preserves the
stripped edge list. -/
theorem updateEdgeInEdges_strip (eid : String) (g : Edge → Edge)
    (hg : ∀ e, Edge.strip (g e) = Edge.strip e) (es : List Edge) :
    (updateEdgeInEdges eid g es).map Edge.strip = es.map Edge.strip := by
  induction es with
  | nil => rfl
  | cons e es ih =>
    unfold updateEdgeInEdges
    by_cases h : (e.id == eid) = true <;> simp [h, hg, ih]

/-- `Net.updateLane` with a strip-preserving lane mutation preserves the
stripped network. -/
theorem net_updateLane_strip (net : Net) (r : LaneRef) (f : Lane → Lane)
    (hf : ∀ l, Lane.strip (f l) = Lane.strip l) :
    (Net.updateLane net r f).strip = net.strip := by
  unfold Net.updateLane Net.strip
  simp only
  congr 1
  apply updateEdgeInEdges_strip
  intro e
  unfold Edge.strip
  simp [updateLaneInLanes_strip r.idx f hf]

/-- Updating one junction with a strip-preserving mutation preserves the
stripped junction list. -/
theorem updateListAt_junction_strip (f : Junction → Junction)
    (hf : ∀ j, Junction.strip (f j) = Junction.strip j) (k : Nat) (js : List Junction) :
    (updateListAt f k js).map Junction.strip = js.map Junction.strip := by
  induction js generalizing k with
  | nil => cases k <;> rfl
  | cons j js ih =>
    cases k with
    | zero => simp [updateListAt, hf]
    | succ k => simp [updateListAt, ih]

/-- Appending resolved lane references to a junction preserves the
stripped network. -/
theorem append_junction_lanes_strip (net : Net) (k : Nat) (a b : List LaneRef) :
    (Net.append_junction_lanes net k a b).strip = net.strip := by
  unfold Net.append_junction_lanes Net.updateJunctionAt Net.strip
  simp only
  congr 1
  rw [updateListAt_junction_strip (fun jn => { jn with intLanes := jn.intLanes ++ b })
      (fun j => rfl),
    updateListAt_junction_strip (fun jn => { jn with incLanes := jn.incLanes ++ a })
      (fun j => rfl)]

/-- Linking step 1 preserves the stripped network. -/
theorem link_edges_strip (net : Net) : (Net.link_edges net).strip = net.strip := by
  unfold Net.link_edges Net.strip
  simp only [List.map_map]
  congr 1

/-- Linking work for one lane preserves the stripped network. -/
theorem process_inc_lane_strip (net net1 : Net) (k : Nat) (r : LaneRef)
    (h : Net.process_inc_lane net k r = .ok net1) : net1.strip = net.strip := by
  unfold Net.process_inc_lane at h
  repeat' split at h
  all_goals first
  | exact absurd h (fun hh => Except.noConfusion hh)
  | (injection h with h; subst h;
     first
     | rfl
     | exact net_updateLane_strip net r _ (fun l => rfl))

/-- Processing a list of incoming lanes preserves the stripped
network. -/
theorem process_inc_lanes_strip (rs : List LaneRef) (net net1 : Net) (k : Nat)
    (h : Net.process_inc_lanes net k rs = .ok net1) : net1.strip = net.strip := by
  induction rs generalizing net with
  | nil =>
    unfold Net.process_inc_lanes at h
    injection h with h
    subst h
    rfl
  | cons r rs ih =>
    unfold Net.process_inc_lanes at h
    split at h
    · exact absurd h (fun hh => Except.noConfusion hh)
    · rename_i netm hm
      rw [ih netm h, process_inc_lane_strip net netm k r hm]

/-- Processing one junction preserves the stripped network. -/
theorem process_junction_strip (net net1 : Net) (k : Nat)
    (h : Net.process_junction net k = .ok net1) : net1.strip = net.strip := by
  unfold Net.process_junction at h
  cases hj : net.junctions[k]? with
  | none =>
    simp only [hj] at h
    injection h with h
    subst h
    rfl
  | some j =>
    simp only [hj] at h
    by_cases ht : (j.type == "internal") = true
    · rw [if_pos ht] at h
      injection h with h
      subst h
      rfl
    · rw [if_neg ht] at h
      cases hinc : Net.resolveLaneIds net j.incLane_ids with
      | error msg =>
        simp only [hinc] at h
        exact absurd h (fun hh => Except.noConfusion hh)
      | ok incRefs =>
        simp only [hinc] at h
        cases hint2 : Net.resolveLaneIds net j.intLane_ids with
        | error msg =>
          simp only [hint2] at h
          exact absurd h (fun hh => Except.noConfusion hh)
        | ok intRefs =>
          simp only [hint2] at h
          rw [process_inc_lanes_strip _ _ _ _ h]
          exact append_junction_lanes_strip net k incRefs intRefs

/-- Processing all junctions preserves the stripped network. -/
theorem process_junctions_strip (ks : List Nat) (net net1 : Net)
    (h : Net.process_junctions net ks = .ok net1) : net1.strip = net.strip := by
  induction ks generalizing net with
  | nil =>
    unfold Net.process_junctions at h
    injection h with h
    subst h
    rfl
  | cons k ks ih =>
    unfold Net.process_junctions at h
    split at h
    · exact absurd h (fun hh => Except.noConfusion hh)
    · rename_i netm hm
      rw [ih netm h, process_junction_strip net netm k hm]

/-- Linking step 3 preserves each stripped connection. -/
theorem link_connection_strip (edges : List Edge) (c c1 : Connection)
    (h : Net.link_connection edges c = .ok c1) :
    Connection.strip c1 = Connection.strip c := by
  unfold Net.link_connection at h
  repeat' split at h
  all_goals first
  | exact absurd h (fun hh => Except.noConfusion hh)
  | (injection h with h; subst h; rfl)

/-- Linking step 3 preserves the stripped connection list. -/
theorem link_connections_list_strip (edges : List Edge) (cs cs1 : List Connection)
    (h : Net.link_connections_list edges cs = .ok cs1) :
    cs1.map Connection.strip = cs.map Connection.strip := by
  induction cs generalizing cs1 with
  | nil =>
    unfold Net.link_connections_list at h
    injection h with h
    subst h
    rfl
  | cons c cs ih =>
    unfold Net.link_connections_list at h
    cases hc1 : Net.link_connection edges c with
    | error msg =>
      simp only [hc1] at h
      exact absurd h (fun hh => Except.noConfusion hh)
    | ok c1 =>
      simp only [hc1] at h
      cases hrest : Net.link_connections_list edges cs with
      | error msg =>
        simp only [hrest] at h
        exact absurd h (fun hh => Except.noConfusion hh)
      | ok rest =>
        simp only [hrest] at h
        injection h with h
        subst h
        simp [link_connection_strip edges c c1 hc1, ih rest hrest]

/-- The linking pass preserves the stripped network: all ids, types,
functions, geometry, permission sets and request tables are unchanged;
only reference fields and the appended lists differ. -/
theorem link_objects_strip (net net1 : Net)
    (h : Net.link_objects net = .ok net1) : net1.strip = net.strip := by
  unfold Net.link_objects at h
  cases h2 : Net.process_junctions (Net.link_edges net)
      (List.range (Net.link_edges net).junctions.length) with
  | error msg =>
    simp only [h2] at h
    exact absurd h (fun hh => Except.noConfusion hh)
  | ok net2 =>
    simp only [h2] at h
    cases hc : Net.link_connections_list net2.edges net2.connections with
    | error msg =>
      simp only [hc] at h
      exact absurd h (fun hh => Except.noConfusion hh)
    | ok cxns =>
      simp only [hc] at h
      injection h with h
      subst h
      have hs2 := process_junctions_strip _ _ _ h2
      rw [link_edges_strip] at hs2
      unfold Net.strip at hs2 ⊢
      injection hs2 with he hj hc2
      simp only
      rw [he, hj, link_connections_list_strip net2.edges net2.connections cxns hc, hc2]

/-! ## Claim C10 -/

/-- The edge constructor copies the function attribute (default
normal). -/
theorem edge_fromAttrib_function (attrib : List (String × String)) (e0 : Edge)
    (h : Edge.fromAttrib attrib = .ok e0) :
    e0.function = (lookupAttr attrib "function").getD "normal" := by
  unfold Edge.fromAttrib at h
  split at h
  · exact absurd h (fun hh => Except.noConfusion hh)
  · injection h with h
    subst h
    rfl

/-- Processing edge children never changes the edge function. -/
theorem edge_processChildren_function (cs : List XmlElem) (e e' : Edge)
    (h : Edge.processChildren e cs = .ok e') : e'.function = e.function := by
  induction cs generalizing e with
  | nil =>
    unfold Edge.processChildren at h
    injection h with h
    subst h
    rfl
  | cons c rest ih =>
    unfold Edge.processChildren at h
    by_cases h1 : c.tag = "stopOffset"
    · rw [if_pos h1] at h
      cases hso : stopOffsetFromAttrib c.attrib with
      | error msg =>
        simp only [hso] at h
        exact absurd h (fun hh => Except.noConfusion hh)
      | ok so =>
        simp only [hso] at h
        exact ih { e with stop_offsets := e.stop_offsets ++ [so] } h
    · rw [if_neg h1] at h
      by_cases h2 : c.tag = "lane"
      · rw [if_pos h2] at h
        cases hla : Lane.fromAttrib c.attrib with
        | error msg =>
          simp only [hla] at h
          exact absurd h (fun hh => Except.noConfusion hh)
        | ok lane0 =>
          simp only [hla] at h
          cases hws : Lane.withStopOffsets lane0 c.children with
          | error msg =>
            simp only [hws] at h
            exact absurd h (fun hh => Except.noConfusion hh)
          | ok lane =>
            simp only [hws] at h
            exact ih
              { e with lanes := e.lanes ++ [{ lane with parentEdge := some e.id }] } h
      · rw [if_neg h2] at h
        exact ih e h

/-- Membership after a dict insertion. -/
theorem insertEdgeDict_mem (es : List Edge) (e x : Edge)
    (hx : x ∈ insertEdgeDict es e) : x = e ∨ x ∈ es := by
  induction es with
  | nil =>
    unfold insertEdgeDict at hx
    rw [List.mem_singleton] at hx
    exact Or.inl hx
  | cons y ys ih =>
    unfold insertEdgeDict at hx
    by_cases h : (y.id == e.id) = true
    · rw [if_pos h] at hx
      rcases List.mem_cons.mp hx with rfl | hx
      · exact Or.inl rfl
      · exact Or.inr (List.mem_cons_of_mem y hx)
    · rw [if_neg h] at hx
      rcases List.mem_cons.mp hx with rfl | hx
      · exact Or.inr (List.mem_cons_self x ys)
      · rcases ih hx with rfl | hx2
        · exact Or.inl rfl
        · exact Or.inr (List.mem_cons_of_mem y hx2)

/-- The construction loop never stores a walkingarea-function edge. -/
theorem process_objects_no_walkingarea (objs : List XmlElem) (net net1 : Net)
    (hinv : ∀ e ∈ net.edges, e.function ≠ "walkingarea")
    (h : Net.process_objects net objs = .ok net1) :
    ∀ e ∈ net1.edges, e.function ≠ "walkingarea" := by
  induction objs generalizing net with
  | nil =>
    unfold Net.process_objects at h
    injection h with h
    subst h
    exact hinv
  | cons obj rest ih =>
    unfold Net.process_objects at h
    by_cases ht : obj.tag = "edge"
    · rw [if_pos ht] at h
      by_cases hw : lookupAttr obj.attrib "function" = some "walkingarea"
      · rw [if_pos hw] at h
        exact ih net hinv h
      · rw [if_neg hw] at h
        cases hfa : Edge.fromAttrib obj.attrib with
        | error msg =>
          simp only [hfa] at h
          exact absurd h (fun hh => Except.noConfusion hh)
        | ok e0 =>
          simp only [hfa] at h
          cases hpc : Edge.processChildren e0 obj.children with
          | error msg =>
            simp only [hpc] at h
            exact absurd h (fun hh => Except.noConfusion hh)
          | ok e1 =>
            simp only [hpc] at h
            refine ih _ ?_ h
            intro x hx
            rcases insertEdgeDict_mem net.edges e1 x hx with rfl | hx2
            · rw [edge_processChildren_function obj.children e0 x hpc,
                edge_fromAttrib_function obj.attrib e0 hfa]
              cases hlk : lookupAttr obj.attrib "function" with
              | none => simp
              | some f =>
                simp only [Option.getD_some]
                intro hEq
                exact hw (by rw [hlk, hEq])
            · exact hinv x hx2
    · rw [if_neg ht] at h
      by_cases hj : obj.tag = "junction"
      · rw [if_pos hj] at h
        cases hja : Junction.fromAttrib obj.attrib with
        | error msg =>
          simp only [hja] at h
          exact absurd h (fun hh => Except.noConfusion hh)
        | ok j0 =>
          simp only [hja] at h
          cases hjc : Junction.processChildren j0 obj.children with
          | error msg =>
            simp only [hjc] at h
            exact absurd h (fun hh => Except.noConfusion hh)
          | ok j1 =>
            simp only [hjc] at h
            exact ih { net with junctions := insertJunctionDict net.junctions j1 } hinv h
      · rw [if_neg hj] at h
        by_cases hcx : obj.tag = "connection"
        · rw [if_pos hcx] at h
          cases hca : Connection.fromAttrib obj.attrib with
          | error msg =>
            simp only [hca] at h
            exact absurd h (fun hh => Except.noConfusion hh)
          | ok c1 =>
            simp only [hca] at h
            exact ih { net with connections := net.connections ++ [c1] } hinv h
        · rw [if_neg hcx] at h
          exact ih net hinv h

/-- C10: a network built from records contains no edge whose function is
walkingarea; such records are skipped entirely at construction time and
the linking pass never changes any edge function. -/
theorem build_excludes_walkingarea (objects : List XmlElem) (net : Net)
    (h : Net.build objects = .ok net) :
    ∀ e ∈ net.edges, e.function ≠ "walkingarea" := by
  unfold Net.build at h
  cases hp : Net.process_objects { edges := [], junctions := [], connections := [] } objects with
  | error msg =>
    simp only [hp] at h
    exact absurd h (fun hh => Except.noConfusion hh)
  | ok net0 =>
    simp only [hp] at h
    have hinv : ∀ e ∈ net0.edges, e.function ≠ "walkingarea" :=
      process_objects_no_walkingarea objects _ net0 (by intro e he; cases he) hp
    have hs := link_objects_strip net0 net h
    unfold Net.strip at hs
    injection hs with he hj hc
    intro e hmem
    have hmap : Edge.strip e ∈ net.edges.map Edge.strip := List.mem_map_of_mem Edge.strip hmem
    rw [he] at hmap
    obtain ⟨e0, he0, heq⟩ := List.mem_map.mp hmap
    have hfun : e.function = e0.function := by
      have h1 : (Edge.strip e0).function = (Edge.strip e).function := by rw [heq]
      exact h1.symm
    rw [hfun]
    exact hinv e0 he0

/-- A walkingarea edge record with a lane child. -/
def fixWalkElem : XmlElem :=
  XmlElem.mk "edge" [("id", "W"), ("function", "walkingarea")]
    [XmlElem.mk "lane"
      [("id", "W_0"), ("index", "0"), ("speed", "1.0"), ("shape", "0,0 1,0")] []]

/-- A plain edge record with one lane child. -/
def fixEdgeElem : XmlElem :=
  XmlElem.mk "edge" [("id", "E2"), ("to", "J2")]
    [XmlElem.mk "lane"
      [("id", "E2_0"), ("index", "0"), ("speed", "13.89"), ("shape", "0,0 10,0")] []]

/-- A junction record. -/
def fixJunctionElem : XmlElem :=
  XmlElem.mk "junction"
    [("id", "J2"), ("type", "priority"), ("incLanes", "E2_0"), ("intLanes", "")] []

def fixObjects : List XmlElem := [fixWalkElem, fixEdgeElem, fixJunctionElem]

/-- The network built from `fixObjects`. -/
def fixBuiltNet : Net :=
  (Net.build fixObjects).toOption.getD { edges := [], junctions := [], connections := [] }

/-- Witness for C10 at a concrete input: building from records that
include a walkingarea edge succeeds and yields a network with no
walkingarea edge. -/
theorem build_excludes_walkingarea_witness :
    lookupAttr fixWalkElem.attrib "function" = some "walkingarea" ∧
    Net.build fixObjects = .ok fixBuiltNet ∧
    (∀ e ∈ fixBuiltNet.edges, e.function ≠ "walkingarea") :=
  ⟨by decide, by decide,
    build_excludes_walkingarea fixObjects fixBuiltNet (by decide)⟩

/-! ## Claim C2: idempotence of the linking pass

The counterexample below shows the pass is not idempotent (the junction
incoming-lane lists are appended to, not assigned).  The development
after it proves the amended statement: a second run succeeds and leaves
the scrubbed state (everything except the junction lane-reference lists
and the lane request lists) unchanged. -/

/-- A network with one junction whose incoming lane resolves. -/
def fixJunctionC2 : Junction :=
  { id := "JC", type := "priority", incLane_ids := ["E_0"], intLane_ids := [],
    incLanes := [], intLanes := [], requests := [], shape := none }

def fixNetC2 : Net :=
  { edges := [fixEdge], junctions := [fixJunctionC2], connections := [] }

/-- Counterexample to C2 as stated: running the linking pass a second
time on the already-linked network duplicates the junction
incoming-lane reference list, so the resolved references are not
identical. -/
theorem link_objects_idempotent_counterexample :
    Except.map (fun n => n.junctions.map Junction.incLanes) (Net.link_objects fixNetC2) =
      .ok [[⟨"E", 0⟩]] ∧
    Except.map (fun n => n.junctions.map Junction.incLanes)
        ((Net.link_objects fixNetC2).bind Net.link_objects) =
      .ok [[⟨"E", 0⟩, ⟨"E", 0⟩]] := by
  constructor <;> decide

/-! ### Toolbox: first-match update against first-match lookup -/

/-- Updating an absent lane index changes nothing. -/
theorem updateLaneInLanes_absent (i : Int) (f : Lane → Lane) (ls : List Lane)
    (h : ls.find? (fun l => l.index == i) = none) :
    updateLaneInLanes i f ls = ls := by
  induction ls with
  | nil => rfl
  | cons l ls ih =>
    cases hl : (l.index == i) with
    | true => simp only [List.find?, hl] at h; exact Option.noConfusion h
    | false =>
      simp only [List.find?, hl] at h
      simp only [updateLaneInLanes, hl]
      rw [ih h]

/-- The updated lane is the one the first-match lookup returns. -/
theorem updateLaneInLanes_found (i : Int) (f : Lane → Lane)
    (hidx : ∀ l, (f l).index = l.index) (ls : List Lane) (l : Lane)
    (h : ls.find? (fun l => l.index == i) = some l) :
    (updateLaneInLanes i f ls).find? (fun l => l.index == i) = some (f l) := by
  induction ls with
  | nil => exact absurd h (fun hh => Option.noConfusion hh)
  | cons x xs ih =>
    cases hl : (x.index == i) with
    | true =>
      simp only [List.find?, hl] at h
      injection h with h
      subst h
      have hfx : ((f x).index == i) = true := by rw [hidx]; exact hl
      simp only [updateLaneInLanes, hl, List.find?, hfx]
    | false =>
      simp only [List.find?, hl] at h
      simp only [updateLaneInLanes, hl, List.find?]
      exact ih h

/-- Lookup after a first-match update: either untouched, or the lookups
alias and the result is the updated lane. -/
theorem updateLaneInLanes_lookup (i i' : Int) (f : Lane → Lane)
    (hidx : ∀ l, (f l).index = l.index) (ls : List Lane) :
    (updateLaneInLanes i f ls).find? (fun l => l.index == i') =
        ls.find? (fun l => l.index == i') ∨
      (ls.find? (fun l => l.index == i') = ls.find? (fun l => l.index == i) ∧
        (updateLaneInLanes i f ls).find? (fun l => l.index == i') =
          (ls.find? (fun l => l.index == i)).map f) := by
  induction ls with
  | nil => exact Or.inl rfl
  | cons x xs ih =>
    cases hl : (x.index == i) with
    | true =>
      cases hl' : (x.index == i') with
      | true =>
        refine Or.inr ⟨?_, ?_⟩
        · simp only [List.find?, hl, hl']
        · have hfx : ((f x).index == i') = true := by rw [hidx]; exact hl'
          simp only [updateLaneInLanes, hl, List.find?, hfx]
          rfl
      | false =>
        refine Or.inl ?_
        have hfx : ((f x).index == i') = false := by rw [hidx]; exact hl'
        simp only [updateLaneInLanes, hl, List.find?, hfx, hl']
    | false =>
      rcases ih with ih | ⟨ih1, ih2⟩
      · refine Or.inl ?_
        cases hl' : (x.index == i') with
        | true => simp only [updateLaneInLanes, hl, List.find?, hl']
        | false => simp only [updateLaneInLanes, hl, List.find?, hl']; exact ih
      · cases hl' : (x.index == i') with
        | true =>
          refine Or.inl ?_
          simp only [updateLaneInLanes, hl, List.find?, hl']
        | false =>
          refine Or.inr ⟨?_, ?_⟩
          · simp only [List.find?, hl, hl']
            exact ih1
          · simp only [updateLaneInLanes, hl, List.find?, hl']
            exact ih2

/-- A scrub-preserving update of the first-match lane preserves the
scrubbed lane list. -/
theorem updateLaneInLanes_scrub (i : Int) (f : Lane → Lane) (ls : List Lane)
    (h : ∀ l, ls.find? (fun l => l.index == i) = some l → Lane.scrub (f l) = Lane.scrub l) :
    (updateLaneInLanes i f ls).map Lane.scrub = ls.map Lane.scrub := by
  induction ls with
  | nil => rfl
  | cons x xs ih =>
    cases hl : (x.index == i) with
    | true =>
      have hx := h x (by simp only [List.find?, hl])
      simp only [updateLaneInLanes, hl, List.map_cons, hx]
    | false =>
      simp only [updateLaneInLanes, hl, List.map_cons]
      rw [ih]
      intro l hfind
      exact h l (by simp only [List.find?, hl]; exact hfind)

/-- Updating under an edge id changes nothing when the update fixes the
found edge. -/
theorem updateEdgeInEdges_fix (eid : String) (g : Edge → Edge) (es : List Edge)
    (h : ∀ e, findEdge es eid = some e → g e = e) :
    updateEdgeInEdges eid g es = es := by
  induction es with
  | nil => rfl
  | cons x xs ih =>
    cases hx : (x.id == eid) with
    | true =>
      have hgx := h x (by simp only [findEdge, List.find?, hx])
      simp only [updateEdgeInEdges, hx, hgx]
    | false =>
      simp only [updateEdgeInEdges, hx]
      rw [ih]
      intro e hfind
      refine h e ?_
      simp only [findEdge, List.find?, hx]
      exact hfind

/-- The updated edge is the one the id lookup returns. -/
theorem updateEdgeInEdges_found (eid : String) (g : Edge → Edge)
    (hid : ∀ e, (g e).id = e.id) (es : List Edge) (e : Edge)
    (h : findEdge es eid = some e) :
    findEdge (updateEdgeInEdges eid g es) eid = some (g e) := by
  induction es with
  | nil => exact absurd h (fun hh => Option.noConfusion hh)
  | cons x xs ih =>
    cases hx : (x.id == eid) with
    | true =>
      simp only [findEdge, List.find?, hx] at h
      injection h with h
      subst h
      have hgx : ((g x).id == eid) = true := by rw [hid]; exact hx
      simp only [findEdge, updateEdgeInEdges, hx, List.find?, hgx]
    | false =>
      simp only [findEdge, List.find?, hx] at h
      simp only [findEdge, updateEdgeInEdges, hx, List.find?]
      exact ih h

/-- Lookup after an id-keyed update: either untouched, or the lookups
alias and the result is the updated edge. -/
theorem updateEdgeInEdges_lookup (eid eid' : String) (g : Edge → Edge)
    (hid : ∀ e, (g e).id = e.id) (es : List Edge) :
    findEdge (updateEdgeInEdges eid g es) eid' = findEdge es eid' ∨
      (findEdge es eid' = findEdge es eid ∧
        findEdge (updateEdgeInEdges eid g es) eid' = (findEdge es eid).map g) := by
  induction es with
  | nil => exact Or.inl rfl
  | cons x xs ih =>
    cases hx : (x.id == eid) with
    | true =>
      cases hx' : (x.id == eid') with
      | true =>
        refine Or.inr ⟨?_, ?_⟩
        · simp only [findEdge, List.find?, hx, hx']
        · have hgx : ((g x).id == eid') = true := by rw [hid]; exact hx'
          simp only [findEdge, updateEdgeInEdges, hx, List.find?, hgx]
          rfl
      | false =>
        refine Or.inl ?_
        have hgx : ((g x).id == eid') = false := by rw [hid]; exact hx'
        simp only [findEdge, updateEdgeInEdges, hx, List.find?, hgx, hx']
    | false =>
      rcases ih with ih | ⟨ih1, ih2⟩
      · refine Or.inl ?_
        cases hx' : (x.id == eid') with
        | true => simp only [findEdge, updateEdgeInEdges, hx, List.find?, hx']
        | false =>
          simp only [findEdge, updateEdgeInEdges, hx, List.find?, hx']
          simp only [findEdge] at ih
          exact ih
      · cases hx' : (x.id == eid') with
        | true =>
          refine Or.inl ?_
          simp only [findEdge, updateEdgeInEdges, hx, List.find?, hx']
        | false =>
          refine Or.inr ⟨?_, ?_⟩
          · simp only [findEdge, List.find?, hx, hx']
            simp only [findEdge] at ih1
            exact ih1
          · simp only [findEdge, updateEdgeInEdges, hx, List.find?, hx']
            simp only [findEdge] at ih2
            exact ih2

/-- A scrub-preserving update of the first-match edge preserves the
scrubbed edge list. -/
theorem updateEdgeInEdges_scrub (eid : String) (g : Edge → Edge) (es : List Edge)
    (h : ∀ e, findEdge es eid = some e → Edge.scrub (g e) = Edge.scrub e) :
    (updateEdgeInEdges eid g es).map Edge.scrub = es.map Edge.scrub := by
  induction es with
  | nil => rfl
  | cons x xs ih =>
    cases hx : (x.id == eid) with
    | true =>
      have hxe := h x (by simp only [findEdge, List.find?, hx])
      simp only [updateEdgeInEdges, hx, List.map_cons, hxe]
    | false =>
      simp only [updateEdgeInEdges, hx, List.map_cons]
      rw [ih]
      intro e hfind
      refine h e ?_
      simp only [findEdge, List.find?, hx]
      exact hfind

/-! ### Generic helpers: positional updates and congruence under a projection -/

/-- The positional update changes nothing at other positions. -/
theorem updateListAt_getElem_ne {α : Type} (f : α → α) :
    ∀ (k kk : Nat), k ≠ kk → ∀ (xs : List α), (updateListAt f k xs)[kk]? = xs[kk]? := by
  intro k kk hne xs
  induction xs generalizing k kk with
  | nil => cases k <;> rfl
  | cons x xs ih =>
    cases k with
    | zero =>
      cases kk with
      | zero => exact absurd rfl hne
      | succ kk => simp only [updateListAt, List.getElem?_cons_succ]
    | succ k =>
      cases kk with
      | zero => simp only [updateListAt, List.getElem?_cons_zero]
      | succ kk =>
        simp only [updateListAt, List.getElem?_cons_succ]
        exact ih k kk (fun hh => hne (congrArg Nat.succ hh))

/-- The positional update applies the mutation at its own position. -/
theorem updateListAt_getElem_self {α : Type} (f : α → α) :
    ∀ (k : Nat) (xs : List α), (updateListAt f k xs)[k]? = (xs[k]?).map f := by
  intro k xs
  induction xs generalizing k with
  | nil => cases k <;> rfl
  | cons x xs ih =>
    cases k with
    | zero =>
      simp only [updateListAt, List.getElem?_cons_zero]
      rfl
    | succ k =>
      simp only [updateListAt, List.getElem?_cons_succ]
      exact ih k

/-- A positional update whose mutation is invisible under a projection
preserves the projected list. -/
theorem updateListAt_map_invisible {α β : Type} (f : α → α) (g : α → β)
    (hf : ∀ x, g (f x) = g x) : ∀ (k : Nat) (xs : List α),
    (updateListAt f k xs).map g = xs.map g := by
  intro k xs
  induction xs generalizing k with
  | nil => cases k <;> rfl
  | cons x xs ih =>
    cases k with
    | zero => simp [updateListAt, hf]
    | succ k => simp [updateListAt, ih]

/-- Indexing commutes with mapping. -/
theorem getElem_map_commute {α β : Type} (g : α → β) :
    ∀ (xs : List α) (i : Nat), (xs.map g)[i]? = (xs[i]?).map g := by
  intro xs
  induction xs with
  | nil => intro i; cases i <;> rfl
  | cons x xs ih =>
    intro i
    cases i with
    | zero =>
      simp only [List.map_cons, List.getElem?_cons_zero]
      rfl
    | succ i =>
      simp only [List.map_cons, List.getElem?_cons_succ]
      exact ih i

/-- Lists equal under a projection are looked up equally by any
predicate that factors through the projection. -/
theorem find_congr_map {α β : Type} (g : α → β) (p : β → Bool) (xs : List α) :
    ∀ ys : List α, xs.map g = ys.map g →
    (xs.find? (fun x => p (g x))).map g = (ys.find? (fun x => p (g x))).map g := by
  induction xs with
  | nil =>
    intro ys h
    cases ys with
    | nil => rfl
    | cons y ys => exact absurd h (by simp)
  | cons x xs ih =>
    intro ys h
    cases ys with
    | nil => exact absurd h (by simp)
    | cons y ys =>
      simp only [List.map_cons, List.cons.injEq] at h
      obtain ⟨h1, h2⟩ := h
      cases hp : p (g x) with
      | true =>
        have hp2 : p (g y) = true := by rw [← h1]; exact hp
        simp only [List.find?, hp, hp2]
        show some (g x) = some (g y)
        rw [h1]
      | false =>
        have hp2 : p (g y) = false := by rw [← h1]; exact hp
        simp only [List.find?, hp, hp2]
        exact ih ys h2

/-- Lists equal under a projection agree on any existence test that
factors through the projection. -/
theorem any_congr_map {α β : Type} (g : α → β) (p : β → Bool) (xs : List α) :
    ∀ ys : List α, xs.map g = ys.map g →
    xs.any (fun x => p (g x)) = ys.any (fun x => p (g x)) := by
  induction xs with
  | nil =>
    intro ys h
    cases ys with
    | nil => rfl
    | cons y ys => exact absurd h (by simp)
  | cons x xs ih =>
    intro ys h
    cases ys with
    | nil => exact absurd h (by simp)
    | cons y ys =>
      simp only [List.map_cons, List.cons.injEq] at h
      obtain ⟨h1, h2⟩ := h
      simp only [List.any_cons]
      rw [h1, ih ys h2]

/-! ### The scrubbed state determines the stripped state -/

theorem edge_strip_scrub (e : Edge) : (Edge.scrub e).strip = e.strip := by
  unfold Edge.scrub Edge.strip
  simp only [List.map_map]
  rfl

theorem net_strip_scrub (net : Net) : net.scrub.strip = net.strip := by
  unfold Net.scrub Net.strip
  simp only [List.map_map]
  congr 1
  exact List.map_congr_left (fun e _ => edge_strip_scrub e)

/-- Networks with the same scrubbed state have the same stripped
state. -/
theorem scrub_eq_imp_strip_eq (u v : Net) (h : u.scrub = v.scrub) :
    u.strip = v.strip := by
  rw [← net_strip_scrub u, ← net_strip_scrub v, h]

/-! ### Congruences: linking reads only the stripped state -/

/-- Edge lookup is congruent under stripping. -/
theorem findEdge_strip_congr (es es2 : List Edge)
    (h : es.map Edge.strip = es2.map Edge.strip) (i : String) :
    (findEdge es i).map Edge.strip = (findEdge es2 i).map Edge.strip :=
  find_congr_map Edge.strip (fun e => e.id == i) es es2 h

/-- Edge lookup is congruent under scrubbing. -/
theorem findEdge_scrub_congr (es es2 : List Edge)
    (h : es.map Edge.scrub = es2.map Edge.scrub) (i : String) :
    (findEdge es i).map Edge.scrub = (findEdge es2 i).map Edge.scrub :=
  find_congr_map Edge.scrub (fun e => e.id == i) es es2 h

/-- The id of the found edge only depends on the stripped edges. -/
theorem findEdge_id_congr (es es2 : List Edge)
    (h : es.map Edge.strip = es2.map Edge.strip) (i : String) :
    (findEdge es i).map Edge.id = (findEdge es2 i).map Edge.id := by
  have hf := findEdge_strip_congr es es2 h i
  cases hfe : findEdge es i <;> cases hfe2 : findEdge es2 i <;> rw [hfe, hfe2] at hf
  · exact absurd hf (by simp)
  · exact absurd hf (by simp)
  · rename_i e e2
    have he : Edge.strip e = Edge.strip e2 := by
      injection hf
    have hi2 := congrArg (fun se => some (Edge.id se)) he
    exact hi2

/-- The index test over the lanes of an edge only depends on the
stripped lanes. -/
theorem lanes_any_index_strip_congr (ls ls2 : List Lane)
    (h : ls.map Lane.strip = ls2.map Lane.strip) (n : Int) :
    ls.any (fun l => l.index == n) = ls2.any (fun l => l.index == n) :=
  any_congr_map Lane.strip (fun l => l.index == n) ls ls2 h

/-- Lane-id resolution only depends on the stripped edges. -/
theorem get_lane_strip_congr (es es2 : List Edge)
    (h : es.map Edge.strip = es2.map Edge.strip) (i : String) :
    Net.get_lane es i = Net.get_lane es2 i := by
  unfold Net.get_lane
  cases hp : parseInt ((strSplit i '_').getLastD "") with
  | none => rfl
  | some n =>
    have hf := findEdge_strip_congr es es2 h (joinSep "_" (strSplit i '_').dropLast)
    cases hfe : findEdge es (joinSep "_" (strSplit i '_').dropLast) <;>
      cases hfe2 : findEdge es2 (joinSep "_" (strSplit i '_').dropLast) <;>
      rw [hfe, hfe2] at hf
    · exact absurd hf (by simp)
    · exact absurd hf (by simp)
    · rename_i e e2
      have he : Edge.strip e = Edge.strip e2 := by injection hf
      have hl : (Edge.strip e).lanes = (Edge.strip e2).lanes := congrArg Edge.lanes he
      have hany : (e.lanes.any fun l => l.index == n) = (e2.lanes.any fun l => l.index == n) :=
        lanes_any_index_strip_congr e.lanes e2.lanes hl n
      show (if (e.lanes.any fun l => l.index == n) = true
          then Except.ok (some (⟨joinSep "_" (strSplit i '_').dropLast, n⟩ : LaneRef))
          else (Except.error "IndexError: Edge contains no Lane with given index." :
            Except String (Option LaneRef))) = _
      rw [hany]

/-- Lane-id list resolution only depends on the stripped edges. -/
theorem resolveLaneIds_congr (u v : Net)
    (h : u.edges.map Edge.strip = v.edges.map Edge.strip) :
    ∀ is2, Net.resolveLaneIds u is2 = Net.resolveLaneIds v is2 := by
  intro is2
  induction is2 with
  | nil => rfl
  | cons i is2 ih =>
    unfold Net.resolveLaneIds
    rw [get_lane_strip_congr u.edges v.edges h i, ih]

/-- Lane dereferencing is congruent under stripping. -/
theorem derefLane_strip_congr (u v : Net)
    (h : u.edges.map Edge.strip = v.edges.map Edge.strip) (r : LaneRef) :
    (derefLane u r).map Lane.strip = (derefLane v r).map Lane.strip := by
  unfold derefLane
  have hf := findEdge_strip_congr u.edges v.edges h r.edge
  cases hfe : findEdge u.edges r.edge <;> cases hfe2 : findEdge v.edges r.edge <;>
    rw [hfe, hfe2] at hf
  · exact absurd hf (by simp)
  · exact absurd hf (by simp)
  · rename_i e e2
    have he : Edge.strip e = Edge.strip e2 := by injection hf
    have hl : e.lanes.map Lane.strip = e2.lanes.map Lane.strip := congrArg Edge.lanes he
    exact find_congr_map Lane.strip (fun l => l.index == r.idx) e.lanes e2.lanes hl

/-- Lane dereferencing is congruent under scrubbing. -/
theorem derefLane_scrub_congr (u v : Net)
    (h : u.edges.map Edge.scrub = v.edges.map Edge.scrub) (r : LaneRef) :
    (derefLane u r).map Lane.scrub = (derefLane v r).map Lane.scrub := by
  unfold derefLane
  have hf := findEdge_scrub_congr u.edges v.edges h r.edge
  cases hfe : findEdge u.edges r.edge <;> cases hfe2 : findEdge v.edges r.edge <;>
    rw [hfe, hfe2] at hf
  · exact absurd hf (by simp)
  · exact absurd hf (by simp)
  · rename_i e e2
    have he : Edge.scrub e = Edge.scrub e2 := by injection hf
    have hl : e.lanes.map Lane.scrub = e2.lanes.map Lane.scrub := congrArg Edge.lanes he
    exact find_congr_map Lane.scrub (fun l => l.index == r.idx) e.lanes e2.lanes hl

/-- Connection-index scans are congruent under stripping. -/
theorem cxnIndicesWhere_congr (q : Connection → Bool) :
    ∀ (n : Nat) (cs cs2 : List Connection),
      cs.map Connection.strip = cs2.map Connection.strip →
      cxnIndicesWhere (fun c => q (Connection.strip c)) n cs =
        cxnIndicesWhere (fun c => q (Connection.strip c)) n cs2 := by
  intro n cs
  induction cs generalizing n with
  | nil =>
    intro cs2 h
    cases cs2 with
    | nil => rfl
    | cons c cs2 => exact absurd h (by simp)
  | cons c cs ih =>
    intro cs2 h
    cases cs2 with
    | nil => exact absurd h (by simp)
    | cons c2 cs2 =>
      simp only [List.map_cons, List.cons.injEq] at h
      obtain ⟨h1, h2⟩ := h
      unfold cxnIndicesWhere
      rw [show q (Connection.strip c) = q (Connection.strip c2) from by rw [h1],
        ih (n + 1) cs2 h2]

/-- The outgoing-connection scan only depends on the stripped
connections. -/
theorem get_connections_from_congr (cs cs2 : List Connection)
    (h : cs.map Connection.strip = cs2.map Connection.strip) (lid : String) :
    Net.get_connections_from_lane cs lid = Net.get_connections_from_lane cs2 lid :=
  cxnIndicesWhere_congr
    (fun c => c.from_edge_id ++ "_" ++ toString c.from_lane_index == lid) 0 cs cs2 h

/-- The incoming-connection scan only depends on the stripped
connections. -/
theorem get_connections_to_congr (cs cs2 : List Connection)
    (h : cs.map Connection.strip = cs2.map Connection.strip) (lid : String) :
    Net.get_connections_to_lane cs lid = Net.get_connections_to_lane cs2 lid :=
  cxnIndicesWhere_congr
    (fun c => c.to_edge_id ++ "_" ++ toString c.to_lane_index == lid) 0 cs cs2 h

/-- Request lookup by index reads only the junction id and request
table. -/
theorem get_request_by_index_congr (j j2 : Junction) (hid : j.id = j2.id)
    (hreq : j.requests = j2.requests) (n : Nat) :
    Junction.get_request_by_index j n = Junction.get_request_by_index j2 n := by
  unfold Junction.get_request_by_index
  rw [hid, hreq]

/-- Request lookup by internal lane reads only the junction id, internal
lane ids and request table. -/
theorem get_request_by_int_lane_congr (j j2 : Junction) (hid : j.id = j2.id)
    (hint : j.intLane_ids = j2.intLane_ids) (hreq : j.requests = j2.requests)
    (v : String) :
    Junction.get_request_by_int_lane j v = Junction.get_request_by_int_lane j2 v := by
  unfold Junction.get_request_by_int_lane
  rw [hint]
  cases hfi : j2.intLane_ids.findIdx? (fun i => i == v) with
  | none => rw [hid]
  | some n => exact get_request_by_index_congr j j2 hid hreq n

/-- The fallback request search reads only the junction fields above and
the stripped connections. -/
theorem fallback_requests_congr (j j2 : Junction) (hid : j.id = j2.id)
    (hint : j.intLane_ids = j2.intLane_ids) (hreq : j.requests = j2.requests)
    (cs cs2 : List Connection) (hcs : cs.map Connection.strip = cs2.map Connection.strip) :
    ∀ cis, Net.fallback_requests j cs cis = Net.fallback_requests j2 cs2 cis := by
  intro cis
  induction cis with
  | nil => rfl
  | cons ci cis ih =>
    have hgi : (cs[ci]?).map Connection.strip = (cs2[ci]?).map Connection.strip := by
      rw [← getElem_map_commute, ← getElem_map_commute, hcs]
    cases hc : cs[ci]? <;> cases hc2 : cs2[ci]? <;> rw [hc, hc2] at hgi
    · simp only [Net.fallback_requests, hc, hc2]
      exact ih
    · exact absurd hgi (by simp)
    · exact absurd hgi (by simp)
    · rename_i c c2
      have hcc : Connection.strip c = Connection.strip c2 := by injection hgi
      have hv0 := congrArg Connection.via_id hcc
      have hv : c.via_id = c2.via_id := hv0
      simp only [Net.fallback_requests, hc, hc2, hv]
      cases hcv : c2.via_id with
      | none => simp only [hid]
      | some v =>
        simp only []
        rw [get_request_by_int_lane_congr j j2 hid hint hreq v]
        cases hgr : Junction.get_request_by_int_lane j2 v with
        | error m => simp only [hgr]
        | ok req => simp only [hgr, ih]

/-- The per-via request discovery reads only the junction fields above
and the stripped connections. -/
theorem requests_for_via_congr (u v : Net)
    (hcs : u.connections.map Connection.strip = v.connections.map Connection.strip)
    (j j2 : Junction) (hid : j.id = j2.id) (hint : j.intLane_ids = j2.intLane_ids)
    (hreq : j.requests = j2.requests) (via : String) :
    Net.requests_for_via u j via = Net.requests_for_via v j2 via := by
  unfold Net.requests_for_via
  rw [get_request_by_int_lane_congr j j2 hid hint hreq via]
  cases Junction.get_request_by_int_lane j2 via with
  | ok r => rfl
  | error m =>
    rw [get_connections_from_congr u.connections v.connections hcs via]
    exact fallback_requests_congr j j2 hid hint hreq u.connections v.connections hcs _

/-- The per-connection request discovery reads only the junction fields
above and the stripped connections. -/
theorem requests_for_cxn_congr (u v : Net)
    (hcs : u.connections.map Connection.strip = v.connections.map Connection.strip)
    (j j2 : Junction) (hid : j.id = j2.id) (hint : j.intLane_ids = j2.intLane_ids)
    (hreq : j.requests = j2.requests) (ci : Nat) :
    Net.requests_for_cxn u j ci = Net.requests_for_cxn v j2 ci := by
  have hgi : (u.connections[ci]?).map Connection.strip =
      (v.connections[ci]?).map Connection.strip := by
    rw [← getElem_map_commute, ← getElem_map_commute, hcs]
  cases hc : u.connections[ci]? <;> cases hc2 : v.connections[ci]? <;> rw [hc, hc2] at hgi
  · simp only [Net.requests_for_cxn, hc, hc2]
  · exact absurd hgi (by simp)
  · exact absurd hgi (by simp)
  · rename_i c c2
    have hcc : Connection.strip c = Connection.strip c2 := by injection hgi
    have hv0 := congrArg Connection.via_id hcc
    have hv : c.via_id = c2.via_id := hv0
    simp only [Net.requests_for_cxn, hc, hc2, hv]
    cases hcv : c2.via_id with
    | none => simp only []
    | some via => exact requests_for_via_congr u v hcs j j2 hid hint hreq via

/-- Request gathering reads only the junction fields above and the
stripped connections. -/
theorem gather_requests_congr (u v : Net)
    (hcs : u.connections.map Connection.strip = v.connections.map Connection.strip)
    (j j2 : Junction) (hid : j.id = j2.id) (hint : j.intLane_ids = j2.intLane_ids)
    (hreq : j.requests = j2.requests) :
    ∀ cis, Net.gather_requests u j cis = Net.gather_requests v j2 cis := by
  intro cis
  induction cis with
  | nil => rfl
  | cons ci cis ih =>
    unfold Net.gather_requests
    rw [requests_for_cxn_congr u v hcs j j2 hid hint hreq ci, ih]

/-! ### Writer lemmas: what the per-lane and per-junction updates touch -/

theorem updateLane_junctions (net : Net) (r : LaneRef) (f : Lane → Lane) :
    (Net.updateLane net r f).junctions = net.junctions := rfl

theorem updateLane_connections (net : Net) (r : LaneRef) (f : Lane → Lane) :
    (Net.updateLane net r f).connections = net.connections := rfl

theorem append_junction_lanes_edges (net : Net) (k : Nat) (a b : List LaneRef) :
    (Net.append_junction_lanes net k a b).edges = net.edges := rfl

theorem append_junction_lanes_connections (net : Net) (k : Nat) (a b : List LaneRef) :
    (Net.append_junction_lanes net k a b).connections = net.connections := rfl

/-- The lane-reference appends act on the junction at their position. -/
theorem append_junction_lanes_at (net : Net) (k : Nat) (a b : List LaneRef) :
    (Net.append_junction_lanes net k a b).junctions[k]? =
      (net.junctions[k]?).map (fun j =>
        { j with incLanes := j.incLanes ++ a, intLanes := j.intLanes ++ b }) := by
  unfold Net.append_junction_lanes Net.updateJunctionAt
  simp only
  rw [updateListAt_getElem_self, updateListAt_getElem_self]
  cases net.junctions[k]? <;> rfl

/-- The lane-reference appends leave other junction positions alone. -/
theorem append_junction_lanes_ne (net : Net) (k kk : Nat) (h : k ≠ kk)
    (a b : List LaneRef) :
    (Net.append_junction_lanes net k a b).junctions[kk]? = net.junctions[kk]? := by
  unfold Net.append_junction_lanes Net.updateJunctionAt
  simp only
  rw [updateListAt_getElem_ne _ k kk h, updateListAt_getElem_ne _ k kk h]

/-- The lane-reference appends preserve the scrubbed network. -/
theorem append_junction_lanes_scrub (net : Net) (k : Nat) (a b : List LaneRef) :
    (Net.append_junction_lanes net k a b).scrub = net.scrub := by
  unfold Net.append_junction_lanes Net.updateJunctionAt Net.scrub
  simp only
  rw [updateListAt_map_invisible (fun jn => { jn with intLanes := jn.intLanes ++ b })
        Junction.scrub (fun j => rfl) k,
      updateListAt_map_invisible (fun jn => { jn with incLanes := jn.incLanes ++ a })
        Junction.scrub (fun j => rfl) k]

/-- A lane mutation that preserves the scrubbed lane it aliases
preserves the scrubbed network. -/
theorem net_updateLane_scrub (net : Net) (r : LaneRef) (f : Lane → Lane)
    (hf : ∀ l, derefLane net r = some l → Lane.scrub (f l) = Lane.scrub l) :
    (Net.updateLane net r f).scrub = net.scrub := by
  have hedges : (updateEdgeInEdges r.edge
      (fun e => { e with lanes := updateLaneInLanes r.idx f e.lanes }) net.edges).map Edge.scrub
      = net.edges.map Edge.scrub := by
    apply updateEdgeInEdges_scrub
    intro e he
    have hlanes : (updateLaneInLanes r.idx f e.lanes).map Lane.scrub =
        e.lanes.map Lane.scrub := by
      apply updateLaneInLanes_scrub
      intro l hl
      apply hf
      unfold derefLane
      rw [he]
      exact hl
    show Edge.scrub { e with lanes := updateLaneInLanes r.idx f e.lanes } = Edge.scrub e
    unfold Edge.scrub
    simp only
    rw [hlanes]
  unfold Net.updateLane Net.scrub
  simp only
  rw [hedges]

/-- Dereference after a lane update: either the reference reads an
untouched lane, or it aliases the updated reference and reads the
mutated lane. -/
theorem derefLane_updateLane (net : Net) (rp r : LaneRef) (f : Lane → Lane)
    (hidx : ∀ l, (f l).index = l.index) :
    derefLane (Net.updateLane net rp f) r = derefLane net r ∨
      (derefLane net r = derefLane net rp ∧
        derefLane (Net.updateLane net rp f) r = (derefLane net rp).map f) := by
  rcases updateEdgeInEdges_lookup rp.edge r.edge
      (fun e => { e with lanes := updateLaneInLanes rp.idx f e.lanes })
      (fun e => rfl) net.edges with hA | ⟨hB1, hB2⟩
  · left
    unfold derefLane Net.updateLane
    simp only
    rw [hA]
  · cases hfe : findEdge net.edges rp.edge with
    | none =>
      left
      unfold derefLane Net.updateLane
      simp only
      rw [hB2, hB1, hfe]
      rfl
    | some e =>
      rcases updateLaneInLanes_lookup rp.idx r.idx f hidx e.lanes with hA2 | ⟨hC1, hC2⟩
      · left
        unfold derefLane Net.updateLane
        simp only
        rw [hB2, hB1, hfe]
        exact hA2
      · right
        constructor
        · unfold derefLane
          rw [hB1, hfe]
          exact hC1
        · unfold derefLane Net.updateLane
          simp only
          rw [hB2, hfe]
          exact hC2

/-- Dereference of the updated reference itself reads the mutated
lane. -/
theorem derefLane_updateLane_self (net : Net) (r : LaneRef) (f : Lane → Lane)
    (hidx : ∀ l, (f l).index = l.index) (l : Lane) (h : derefLane net r = some l) :
    derefLane (Net.updateLane net r f) r = some (f l) := by
  unfold derefLane at h
  cases hfe : findEdge net.edges r.edge with
  | none => rw [hfe] at h; exact absurd h (by simp)
  | some e =>
    rw [hfe] at h
    have hl : e.lanes.find? (fun l2 => l2.index == r.idx) = some l := h
    have hef := updateEdgeInEdges_found r.edge
      (fun e => { e with lanes := updateLaneInLanes r.idx f e.lanes })
      (fun e => rfl) net.edges e hfe
    have hlf := updateLaneInLanes_found r.idx f hidx e.lanes l hl
    unfold derefLane Net.updateLane
    simp only
    rw [hef]
    exact hlf

/-! ### The saturation predicate for processed lanes -/

/-- A lane reference is done when the lane it reads carries exactly the
connection lists the processing step assigns. -/
def laneDone (net : Net) (r : LaneRef) : Prop :=
  ∀ l, derefLane net r = some l →
    l.incoming_connections = Net.get_connections_to_lane net.connections l.id ∧
    l.outgoing_connections = Net.get_connections_from_lane net.connections l.id

/-- The per-lane linking step touches neither junctions nor
connections. -/
theorem process_inc_lane_parts (net net1 : Net) (k : Nat) (r : LaneRef)
    (h : Net.process_inc_lane net k r = .ok net1) :
    net1.junctions = net.junctions ∧ net1.connections = net.connections := by
  cases hjk : net.junctions[k]? <;> cases hdl : derefLane net r <;>
    simp only [Net.process_inc_lane, hjk, hdl] at h
  · injection h with h; subst h; exact ⟨rfl, rfl⟩
  · injection h with h; subst h; exact ⟨rfl, rfl⟩
  · injection h with h; subst h; exact ⟨rfl, rfl⟩
  · rename_i j l0
    cases hg : Net.gather_requests net j
        (Net.get_connections_from_lane net.connections l0.id) with
    | error m => simp only [hg] at h; exact Except.noConfusion h
    | ok reqs =>
      simp only [hg] at h
      injection h with h
      subst h
      exact ⟨rfl, rfl⟩

/-- The per-lane linking step saturates the lane it processes. -/
theorem laneDone_process_self (net net1 : Net) (k : Nat) (r : LaneRef) (j : Junction)
    (hj : net.junctions[k]? = some j)
    (h : Net.process_inc_lane net k r = .ok net1) : laneDone net1 r := by
  cases hdl : derefLane net r with
  | none =>
    simp only [Net.process_inc_lane, hj, hdl] at h
    injection h with h
    subst h
    intro l hl
    rw [hdl] at hl
    exact absurd hl (by simp)
  | some l0 =>
    simp only [Net.process_inc_lane, hj, hdl] at h
    cases hg : Net.gather_requests net j
        (Net.get_connections_from_lane net.connections l0.id) with
    | error m => simp only [hg] at h; exact Except.noConfusion h
    | ok reqs =>
      simp only [hg] at h
      injection h with h
      subst h
      intro l hl
      have hself := derefLane_updateLane_self net r
        (fun lane => { lane with
          incoming_connections := Net.get_connections_to_lane net.connections l0.id,
          outgoing_connections := Net.get_connections_from_lane net.connections l0.id,
          requests := lane.requests ++ reqs }) (fun lane => rfl) l0 hdl
      rw [hself] at hl
      injection hl with hl
      subst hl
      exact ⟨rfl, rfl⟩

/-- The per-lane linking step preserves saturation of every
reference. -/
theorem laneDone_process_mono (net net1 : Net) (k : Nat) (rp r : LaneRef)
    (h : Net.process_inc_lane net k rp = .ok net1) (hd : laneDone net r) :
    laneDone net1 r := by
  cases hjk : net.junctions[k]? <;> cases hdl : derefLane net rp <;>
    simp only [Net.process_inc_lane, hjk, hdl] at h
  · injection h with h; subst h; exact hd
  · injection h with h; subst h; exact hd
  · injection h with h; subst h; exact hd
  · rename_i j l0
    cases hg : Net.gather_requests net j
        (Net.get_connections_from_lane net.connections l0.id) with
    | error m => simp only [hg] at h; exact Except.noConfusion h
    | ok reqs =>
      simp only [hg] at h
      injection h with h
      subst h
      rcases derefLane_updateLane net rp r
        (fun lane => { lane with
          incoming_connections := Net.get_connections_to_lane net.connections l0.id,
          outgoing_connections := Net.get_connections_from_lane net.connections l0.id,
          requests := lane.requests ++ reqs }) (fun lane => rfl) with hA | ⟨hB1, hB2⟩
      · intro l hl
        rw [hA] at hl
        exact hd l hl
      · intro l hl
        rw [hB2, hdl] at hl
        injection hl with hl
        subst hl
        exact ⟨rfl, rfl⟩

/-- The incoming-lane loop touches neither junctions nor connections. -/
theorem process_inc_lanes_parts :
    ∀ (rs : List LaneRef) (net net1 : Net) (k : Nat),
      Net.process_inc_lanes net k rs = .ok net1 →
      net1.junctions = net.junctions ∧ net1.connections = net.connections := by
  intro rs
  induction rs with
  | nil =>
    intro net net1 k h
    injection h with h
    subst h
    exact ⟨rfl, rfl⟩
  | cons r rs ih =>
    intro net net1 k h
    cases hstep : Net.process_inc_lane net k r with
    | error m =>
      simp only [Net.process_inc_lanes, hstep] at h
      exact Except.noConfusion h
    | ok um =>
      simp only [Net.process_inc_lanes, hstep] at h
      have h1 := process_inc_lane_parts net um k r hstep
      have h2 := ih um net1 k h
      exact ⟨h2.1.trans h1.1, h2.2.trans h1.2⟩

/-- The incoming-lane loop preserves saturation of every reference. -/
theorem laneDone_process_list_mono :
    ∀ (rs : List LaneRef) (net net1 : Net) (k : Nat) (r : LaneRef),
      Net.process_inc_lanes net k rs = .ok net1 → laneDone net r → laneDone net1 r := by
  intro rs
  induction rs with
  | nil =>
    intro net net1 k r h hd
    injection h with h
    subst h
    exact hd
  | cons r0 rs ih =>
    intro net net1 k r h hd
    cases hstep : Net.process_inc_lane net k r0 with
    | error m =>
      simp only [Net.process_inc_lanes, hstep] at h
      exact Except.noConfusion h
    | ok um =>
      simp only [Net.process_inc_lanes, hstep] at h
      exact ih um net1 k r h (laneDone_process_mono net um k r0 r hstep hd)

/-- Run-one extraction for the incoming-lane loop: every processed
reference ends saturated, and its request gathering succeeded. -/
theorem process_inc_lanes_extract (k : Nat) (j : Junction) :
    ∀ (rs : List LaneRef) (u u1 : Net),
      u.junctions[k]? = some j →
      Net.process_inc_lanes u k rs = .ok u1 →
      ∀ r ∈ rs, laneDone u1 r ∧ (∀ l, derefLane u r = some l →
        ∃ reqs, Net.gather_requests u j
          (Net.get_connections_from_lane u.connections l.id) = .ok reqs) := by
  intro rs
  induction rs with
  | nil =>
    intro u u1 hj h r hr
    exact absurd hr (List.not_mem_nil r)
  | cons r0 rs ih =>
    intro u u1 hj h r hr
    cases hstep : Net.process_inc_lane u k r0 with
    | error m =>
      simp only [Net.process_inc_lanes, hstep] at h
      exact Except.noConfusion h
    | ok um =>
      simp only [Net.process_inc_lanes, hstep] at h
      have hparts := process_inc_lane_parts u um k r0 hstep
      have hjm : um.junctions[k]? = some j := by rw [hparts.1]; exact hj
      rcases List.mem_cons.mp hr with hr0 | hrs
      · subst hr0
        constructor
        · exact laneDone_process_list_mono rs um u1 k r
            h (laneDone_process_self u um k r j hj hstep)
        · intro l hl
          simp only [Net.process_inc_lane, hj, hl] at hstep
          cases hg : Net.gather_requests u j
              (Net.get_connections_from_lane u.connections l.id) with
          | error m => simp only [hg] at hstep; exact Except.noConfusion hstep
          | ok reqs => exact ⟨reqs, rfl⟩
      · have hrec := ih um u1 hjm h r hrs
        refine ⟨hrec.1, ?_⟩
        intro l hl
        have hstrip : Net.strip um = Net.strip u := process_inc_lane_strip u um k r0 hstep
        have hestrip : um.edges.map Edge.strip = u.edges.map Edge.strip := congrArg Net.edges hstrip
        have hderef := derefLane_strip_congr um u hestrip r
        rw [hl] at hderef
        cases hdm : derefLane um r with
        | none => rw [hdm] at hderef; exact absurd hderef (by simp)
        | some lm =>
          rw [hdm] at hderef
          have hlm : Lane.strip lm = Lane.strip l := by injection hderef
          have hid0 := congrArg Lane.id hlm
          have hid : lm.id = l.id := hid0
          obtain ⟨reqs, hgr⟩ := hrec.2 lm hdm
          refine ⟨reqs, ?_⟩
          have hconn : um.connections = u.connections := hparts.2
          rw [show Net.get_connections_from_lane u.connections l.id =
                Net.get_connections_from_lane um.connections lm.id from by rw [hconn, hid],
              gather_requests_congr u um (by rw [hconn]) j j rfl rfl rfl]
          exact hgr

/-! ### Run-one extraction over the junction loop -/

/-- Transfer a successful request gathering between networks that agree
on stripped edges and stripped connections. -/
theorem gather_ok_transfer (a b : Net) (j1 : Junction)
    (hstripE : b.edges.map Edge.strip = a.edges.map Edge.strip)
    (hconnS : b.connections.map Connection.strip = a.connections.map Connection.strip)
    (r : LaneRef)
    (hg : ∀ l, derefLane a r = some l →
      ∃ reqs, Net.gather_requests a j1
        (Net.get_connections_from_lane a.connections l.id) = .ok reqs) :
    ∀ l, derefLane b r = some l →
      ∃ reqs, Net.gather_requests b j1
        (Net.get_connections_from_lane b.connections l.id) = .ok reqs := by
  intro l hl
  have hderef := derefLane_strip_congr b a hstripE r
  rw [hl] at hderef
  cases hdm : derefLane a r with
  | none => rw [hdm] at hderef; exact absurd hderef (by simp)
  | some lm =>
    rw [hdm] at hderef
    have hlm : Lane.strip l = Lane.strip lm := by injection hderef
    have hid0 := congrArg Lane.id hlm
    have hid : l.id = lm.id := hid0
    obtain ⟨reqs, hgr⟩ := hg lm hdm
    refine ⟨reqs, ?_⟩
    rw [show Net.get_connections_from_lane b.connections l.id =
          Net.get_connections_from_lane a.connections lm.id from by
        rw [hid]
        exact get_connections_from_congr b.connections a.connections hconnS lm.id,
      gather_requests_congr b a hconnS j1 j1 rfl rfl rfl]
    exact hgr

/-- What one junction-processing step guarantees: connections untouched,
other junction positions untouched, saturation preserved, and for the
processed position the resolutions succeed, the resolved incoming
references land in the junction list, and every listed reference is
saturated with a successful gathering. -/
theorem process_junction_step (u um : Net) (k : Nat)
    (h : Net.process_junction u k = .ok um) :
    um.connections = u.connections ∧
    (∀ kk, k ≠ kk → um.junctions[kk]? = u.junctions[kk]?) ∧
    (∀ r, laneDone u r → laneDone um r) ∧
    (∀ j1, um.junctions[k]? = some j1 → (j1.type == "internal") = false →
      (∃ incR intR, Net.resolveLaneIds u j1.incLane_ids = .ok incR ∧
        Net.resolveLaneIds u j1.intLane_ids = .ok intR ∧ ∀ r ∈ incR, r ∈ j1.incLanes) ∧
      (∀ r ∈ j1.incLanes, laneDone um r ∧ ∀ l, derefLane um r = some l →
        ∃ reqs, Net.gather_requests um j1
          (Net.get_connections_from_lane um.connections l.id) = .ok reqs)) := by
  unfold Net.process_junction at h
  cases hjk : u.junctions[k]? with
  | none =>
    simp only [hjk] at h
    injection h with h
    subst h
    refine ⟨rfl, fun kk _ => rfl, fun r hd => hd, ?_⟩
    intro j1 hj1 hnint
    rw [hjk] at hj1
    exact absurd hj1 (by simp)
  | some j =>
    simp only [hjk] at h
    by_cases ht : (j.type == "internal") = true
    · rw [if_pos ht] at h
      injection h with h
      subst h
      refine ⟨rfl, fun kk _ => rfl, fun r hd => hd, ?_⟩
      intro j1 hj1 hnint
      rw [hjk] at hj1
      injection hj1 with hj1
      subst hj1
      rw [ht] at hnint
      exact Bool.noConfusion hnint
    · rw [if_neg ht] at h
      cases hinc : Net.resolveLaneIds u j.incLane_ids with
      | error m => simp only [hinc] at h; exact Except.noConfusion h
      | ok incR =>
        simp only [hinc] at h
        cases hint2 : Net.resolveLaneIds u j.intLane_ids with
        | error m => simp only [hint2] at h; exact Except.noConfusion h
        | ok intR =>
          simp only [hint2] at h
          have hva : (Net.append_junction_lanes u k incR intR).junctions[k]? =
              some { j with incLanes := j.incLanes ++ incR,
                            intLanes := j.intLanes ++ intR } := by
            rw [append_junction_lanes_at, hjk]
            rfl
          rw [hva] at h
          have h2 : Net.process_inc_lanes (Net.append_junction_lanes u k incR intR) k
              (j.incLanes ++ incR) = .ok um := h
          have hparts := process_inc_lanes_parts _ _ _ _ h2
          refine ⟨?_, ?_, ?_, ?_⟩
          · rw [hparts.2]
            rfl
          · intro kk hkk
            rw [hparts.1]
            exact append_junction_lanes_ne u k kk hkk incR intR
          · intro r hd
            exact laneDone_process_list_mono _ _ _ _ _ h2 hd
          · intro j1 hj1 hnint
            rw [hparts.1, hva] at hj1
            injection hj1 with hj1
            subst hj1
            constructor
            · exact ⟨incR, intR, hinc, hint2,
                fun r hr => List.mem_append.mpr (Or.inr hr)⟩
            · intro r hr
              have hinner := process_inc_lanes_extract k _ (j.incLanes ++ incR)
                (Net.append_junction_lanes u k incR intR) um hva h2 r hr
              refine ⟨hinner.1, ?_⟩
              have hs2 : Net.strip um = Net.strip (Net.append_junction_lanes u k incR intR) :=
                process_inc_lanes_strip _ _ _ _ h2
              exact gather_ok_transfer (Net.append_junction_lanes u k incR intR) um _
                (congrArg Net.edges hs2) (by rw [hparts.2]) r hinner.2

/-- Run-one extraction over the whole junction loop. -/
theorem process_junctions_extract :
    ∀ (ks : List Nat) (u w : Net), ks.Nodup →
      Net.process_junctions u ks = .ok w →
      w.connections = u.connections ∧
      (∀ k, k ∉ ks → w.junctions[k]? = u.junctions[k]?) ∧
      (∀ r, laneDone u r → laneDone w r) ∧
      (∀ k ∈ ks, ∀ j1, w.junctions[k]? = some j1 → (j1.type == "internal") = false →
        (∃ incR intR, Net.resolveLaneIds w j1.incLane_ids = .ok incR ∧
          Net.resolveLaneIds w j1.intLane_ids = .ok intR ∧ ∀ r ∈ incR, r ∈ j1.incLanes) ∧
        (∀ r ∈ j1.incLanes, laneDone w r ∧ ∀ l, derefLane w r = some l →
          ∃ reqs, Net.gather_requests w j1
            (Net.get_connections_from_lane w.connections l.id) = .ok reqs)) := by
  intro ks
  induction ks with
  | nil =>
    intro u w hnod h
    injection h with h
    subst h
    exact ⟨rfl, fun k _ => rfl, fun r hd => hd, fun k hk => absurd hk (List.not_mem_nil k)⟩
  | cons k ks ih =>
    intro u w hnod h
    obtain ⟨hknotin, hnod2⟩ := List.nodup_cons.mp hnod
    cases hstep : Net.process_junction u k with
    | error m =>
      simp only [Net.process_junctions, hstep] at h
      exact Except.noConfusion h
    | ok um =>
      simp only [Net.process_junctions, hstep] at h
      have S := process_junction_step u um k hstep
      have W := ih um w hnod2 h
      refine ⟨W.1.trans S.1, ?_, ?_, ?_⟩
      · intro kk hkk
        have hkk1 : kk ∉ ks := fun hc => hkk (List.mem_cons_of_mem k hc)
        have hkk2 : k ≠ kk := fun hc => hkk (hc ▸ List.mem_cons_self k ks)
        rw [W.2.1 kk hkk1]
        exact S.2.1 kk hkk2
      · intro r hd
        exact W.2.2.1 r (S.2.2.1 r hd)
      · intro k0 hk0 j1 hj1 hnint
        rcases List.mem_cons.mp hk0 with hk0e | hk0m
        · subst hk0e
          have hjum : um.junctions[k0]? = some j1 := by
            rw [← W.2.1 k0 hknotin]
            exact hj1
          have D := S.2.2.2 j1 hjum hnint
          have hstripWU : Net.strip w = Net.strip um := process_junctions_strip ks um w h
          have hestrip : w.edges.map Edge.strip = um.edges.map Edge.strip :=
            congrArg Net.edges hstripWU
          constructor
          · obtain ⟨incR, intR, hinc, hint2, hmem⟩ := D.1
            refine ⟨incR, intR, ?_, ?_, hmem⟩
            · rw [resolveLaneIds_congr w um hestrip j1.incLane_ids]
              rw [resolveLaneIds_congr um u (congrArg Net.edges
                (process_junction_strip u um k0 hstep)) j1.incLane_ids]
              exact hinc
            · rw [resolveLaneIds_congr w um hestrip j1.intLane_ids]
              rw [resolveLaneIds_congr um u (congrArg Net.edges
                (process_junction_strip u um k0 hstep)) j1.intLane_ids]
              exact hint2
          · intro r hr
            have hD := D.2 r hr
            refine ⟨W.2.2.1 r hD.1, ?_⟩
            exact gather_ok_transfer um w j1 hestrip (by rw [W.1]) r hD.2
        · exact W.2.2.2 k0 hk0m j1 hj1 hnint

/-! ### The edge junction references are already linked after run one -/

/-- All edge junction references agree with a fresh lookup. -/
def Net.edgesLinked (net : Net) : Prop :=
  ∀ e ∈ net.edges, e.from_junction = jget net.junctions e.from_junction_id ∧
    e.to_junction = jget net.junctions e.to_junction_id

/-- The keyed junction lookup reads only the stripped junctions. -/
theorem jget_congr (js js2 : List Junction)
    (h : js.map Junction.strip = js2.map Junction.strip) (o : Option String) :
    jget js o = jget js2 o := by
  unfold jget
  cases o with
  | none => rfl
  | some i =>
    have hany : js.any (fun j => j.id == i) = js2.any (fun j => j.id == i) :=
      any_congr_map Junction.strip (fun sj => sj.id == i) js js2 h
    show (if js.any (fun j => j.id == i) then some i else none) =
      (if js2.any (fun j => j.id == i) then some i else none)
    rw [hany]

/-- Membership in a first-match edge update. -/
theorem mem_updateEdgeInEdges (eid : String) (g : Edge → Edge) :
    ∀ (es : List Edge) (e2 : Edge), e2 ∈ updateEdgeInEdges eid g es →
      e2 ∈ es ∨ ∃ e ∈ es, e2 = g e := by
  intro es
  induction es with
  | nil => intro e2 h; exact absurd h (List.not_mem_nil e2)
  | cons x xs ih =>
    intro e2 h
    cases hx : (x.id == eid) with
    | true =>
      simp only [updateEdgeInEdges, hx] at h
      rcases List.mem_cons.mp h with he | hxs
      · exact Or.inr ⟨x, List.mem_cons_self x xs, he⟩
      · exact Or.inl (List.mem_cons_of_mem x hxs)
    | false =>
      simp only [updateEdgeInEdges, hx] at h
      rcases List.mem_cons.mp h with he | hxs
      · exact Or.inl (he ▸ List.mem_cons_self x xs)
      · rcases ih e2 hxs with h1 | ⟨e, he2, hge⟩
        · exact Or.inl (List.mem_cons_of_mem x h1)
        · exact Or.inr ⟨e, List.mem_cons_of_mem x he2, hge⟩

/-- Lane updates do not disturb the edge junction references. -/
theorem edgesLinked_updateLane (net : Net) (r : LaneRef) (f : Lane → Lane)
    (h : Net.edgesLinked net) : Net.edgesLinked (Net.updateLane net r f) := by
  intro e2 he2
  rcases mem_updateEdgeInEdges r.edge
      (fun e => { e with lanes := updateLaneInLanes r.idx f e.lanes })
      net.edges e2 he2 with h1 | ⟨e, he, hge⟩
  · exact h e2 h1
  · subst hge
    exact h e he

/-- Junction lane-reference appends do not disturb the edge junction
references. -/
theorem edgesLinked_append (net : Net) (k : Nat) (a b : List LaneRef)
    (h : Net.edgesLinked net) : Net.edgesLinked (Net.append_junction_lanes net k a b) := by
  have hjs : (Net.append_junction_lanes net k a b).junctions.map Junction.strip =
      net.junctions.map Junction.strip := by
    unfold Net.append_junction_lanes Net.updateJunctionAt
    simp only
    rw [updateListAt_map_invisible (fun jn => { jn with intLanes := jn.intLanes ++ b })
          Junction.strip (fun j => rfl) k,
        updateListAt_map_invisible (fun jn => { jn with incLanes := jn.incLanes ++ a })
          Junction.strip (fun j => rfl) k]
  intro e he
  have he0 : e ∈ net.edges := he
  obtain ⟨h1, h2⟩ := h e he0
  constructor
  · rw [h1]
    exact jget_congr net.junctions _ hjs.symm e.from_junction_id
  · rw [h2]
    exact jget_congr net.junctions _ hjs.symm e.to_junction_id

/-- The per-lane linking step preserves linked edge references. -/
theorem edgesLinked_process_inc_lane (net net1 : Net) (k : Nat) (r : LaneRef)
    (h : Net.process_inc_lane net k r = .ok net1) (hE : Net.edgesLinked net) :
    Net.edgesLinked net1 := by
  cases hjk : net.junctions[k]? <;> cases hdl : derefLane net r <;>
    simp only [Net.process_inc_lane, hjk, hdl] at h
  · injection h with h; subst h; exact hE
  · injection h with h; subst h; exact hE
  · injection h with h; subst h; exact hE
  · rename_i j l0
    cases hg : Net.gather_requests net j
        (Net.get_connections_from_lane net.connections l0.id) with
    | error m => simp only [hg] at h; exact Except.noConfusion h
    | ok reqs =>
      simp only [hg] at h
      injection h with h
      subst h
      exact edgesLinked_updateLane net r _ hE

/-- The incoming-lane loop preserves linked edge references. -/
theorem edgesLinked_process_inc_lanes :
    ∀ (rs : List LaneRef) (net net1 : Net) (k : Nat),
      Net.process_inc_lanes net k rs = .ok net1 → Net.edgesLinked net →
      Net.edgesLinked net1 := by
  intro rs
  induction rs with
  | nil =>
    intro net net1 k h hE
    injection h with h
    subst h
    exact hE
  | cons r rs ih =>
    intro net net1 k h hE
    cases hstep : Net.process_inc_lane net k r with
    | error m =>
      simp only [Net.process_inc_lanes, hstep] at h
      exact Except.noConfusion h
    | ok um =>
      simp only [Net.process_inc_lanes, hstep] at h
      exact ih um net1 k h (edgesLinked_process_inc_lane net um k r hstep hE)

/-- Processing one junction preserves linked edge references. -/
theorem edgesLinked_process_junction (u um : Net) (k : Nat)
    (h : Net.process_junction u k = .ok um) (hE : Net.edgesLinked u) :
    Net.edgesLinked um := by
  unfold Net.process_junction at h
  cases hjk : u.junctions[k]? with
  | none =>
    simp only [hjk] at h
    injection h with h
    subst h
    exact hE
  | some j =>
    simp only [hjk] at h
    by_cases ht : (j.type == "internal") = true
    · rw [if_pos ht] at h
      injection h with h
      subst h
      exact hE
    · rw [if_neg ht] at h
      cases hinc : Net.resolveLaneIds u j.incLane_ids with
      | error m => simp only [hinc] at h; exact Except.noConfusion h
      | ok incR =>
        simp only [hinc] at h
        cases hint2 : Net.resolveLaneIds u j.intLane_ids with
        | error m => simp only [hint2] at h; exact Except.noConfusion h
        | ok intR =>
          simp only [hint2] at h
          exact edgesLinked_process_inc_lanes _ _ _ _ h
            (edgesLinked_append u k incR intR hE)

/-- The junction loop preserves linked edge references. -/
theorem edgesLinked_process_junctions :
    ∀ (ks : List Nat) (u w : Net),
      Net.process_junctions u ks = .ok w → Net.edgesLinked u → Net.edgesLinked w := by
  intro ks
  induction ks with
  | nil =>
    intro u w h hE
    injection h with h
    subst h
    exact hE
  | cons k ks ih =>
    intro u w h hE
    cases hstep : Net.process_junction u k with
    | error m =>
      simp only [Net.process_junctions, hstep] at h
      exact Except.noConfusion h
    | ok um =>
      simp only [Net.process_junctions, hstep] at h
      exact ih um w h (edgesLinked_process_junction u um k hstep hE)

/-- Linking step 1 leaves every edge junction reference linked. -/
theorem edgesLinked_link_edges (net : Net) : Net.edgesLinked (Net.link_edges net) := by
  intro e he
  rcases List.mem_map.mp he with ⟨e0, he0, heq⟩
  subst heq
  exact ⟨rfl, rfl⟩

/-- On a network with linked edge references, linking step 1 is the
identity. -/
theorem link_edges_of_linked (net : Net) (h : Net.edgesLinked net) :
    Net.link_edges net = net := by
  unfold Net.link_edges
  have hmap : net.edges.map (fun e =>
      { e with from_junction := jget net.junctions e.from_junction_id,
               to_junction := jget net.junctions e.to_junction_id }) = net.edges := by
    calc net.edges.map (fun e =>
        { e with from_junction := jget net.junctions e.from_junction_id,
                 to_junction := jget net.junctions e.to_junction_id })
        = net.edges.map id := List.map_congr_left (fun e he => by
          obtain ⟨h1, h2⟩ := h e he
          show { e with from_junction := jget net.junctions e.from_junction_id,
                        to_junction := jget net.junctions e.to_junction_id } = e
          rw [← h1, ← h2])
      _ = net.edges := List.map_id net.edges
  rw [hmap]

/-! ### The second run of the junction loop -/

/-- Rerunning the incoming-lane loop on a saturated state succeeds and
preserves the scrubbed state. -/
theorem process_inc_lanes_rerun (s1 : Net) (k : Nat) (j1 jA : Junction)
    (hids : jA.id = j1.id) (hintf : jA.intLane_ids = j1.intLane_ids)
    (hreqj : jA.requests = j1.requests)
    (hsatk : ∀ r ∈ j1.incLanes, laneDone s1 r ∧ ∀ l, derefLane s1 r = some l →
      ∃ reqs, Net.gather_requests s1 j1
        (Net.get_connections_from_lane s1.connections l.id) = .ok reqs) :
    ∀ (rs : List LaneRef) (v : Net), v.scrub = s1.scrub → v.junctions[k]? = some jA →
      (∀ r ∈ rs, r ∈ j1.incLanes) →
      ∃ w, Net.process_inc_lanes v k rs = .ok w ∧ w.scrub = s1.scrub ∧
        w.junctions = v.junctions := by
  intro rs
  induction rs with
  | nil =>
    intro v hscrub hjk hmem
    exact ⟨v, rfl, hscrub, rfl⟩
  | cons r rs ih =>
    intro v hscrub hjk hmem
    have hr1 : r ∈ j1.incLanes := hmem r (List.mem_cons_self r rs)
    have hconn0 := congrArg Net.connections hscrub
    have hconn : v.connections = s1.connections := hconn0
    have hescrub0 := congrArg Net.edges hscrub
    have hescrub : v.edges.map Edge.scrub = s1.edges.map Edge.scrub := hescrub0
    cases hdl : derefLane v r with
    | none =>
      have hstep : Net.process_inc_lane v k r = .ok v := by
        simp only [Net.process_inc_lane, hjk, hdl]
      obtain ⟨w, hw, hws, hwj⟩ := ih v hscrub hjk
        (fun r2 hr2 => hmem r2 (List.mem_cons_of_mem r hr2))
      exact ⟨w, by simp only [Net.process_inc_lanes, hstep]; exact hw, hws, hwj⟩
    | some lv =>
      have hderef := derefLane_scrub_congr v s1 hescrub r
      rw [hdl] at hderef
      cases hd1 : derefLane s1 r with
      | none => rw [hd1] at hderef; exact absurd hderef (by simp)
      | some l1 =>
        rw [hd1] at hderef
        have hlv : Lane.scrub lv = Lane.scrub l1 := by injection hderef
        have hid0 := congrArg Lane.id hlv
        have hid : lv.id = l1.id := hid0
        obtain ⟨hdone, hgat⟩ := hsatk r hr1
        obtain ⟨hinc1, hout1⟩ := hdone l1 hd1
        obtain ⟨reqs, hgr⟩ := hgat l1 hd1
        have hgv : Net.gather_requests v jA
            (Net.get_connections_from_lane v.connections lv.id) = .ok reqs := by
          rw [show Net.get_connections_from_lane v.connections lv.id =
                Net.get_connections_from_lane s1.connections l1.id from by rw [hconn, hid],
              gather_requests_congr v s1 (by rw [hconn]) jA j1 hids hintf hreqj]
          exact hgr
        have hstep : Net.process_inc_lane v k r = .ok (Net.updateLane v r (fun lane =>
            { lane with
              incoming_connections := Net.get_connections_to_lane v.connections lv.id,
              outgoing_connections := Net.get_connections_from_lane v.connections lv.id,
              requests := lane.requests ++ reqs })) := by
          simp only [Net.process_inc_lane, hjk, hdl, hgv]
        have hscrubstep : (Net.updateLane v r (fun lane =>
            { lane with
              incoming_connections := Net.get_connections_to_lane v.connections lv.id,
              outgoing_connections := Net.get_connections_from_lane v.connections lv.id,
              requests := lane.requests ++ reqs })).scrub = v.scrub := by
          apply net_updateLane_scrub
          intro l hl
          rw [hdl] at hl
          injection hl with hl
          subst hl
          have hi20 := congrArg Lane.incoming_connections hlv
          have hi2 : lv.incoming_connections = l1.incoming_connections := hi20
          have ho20 := congrArg Lane.outgoing_connections hlv
          have ho2 : lv.outgoing_connections = l1.outgoing_connections := ho20
          have hvinc : lv.incoming_connections =
              Net.get_connections_to_lane v.connections lv.id := by
            rw [hi2, hinc1, hconn, hid]
          have hvout : lv.outgoing_connections =
              Net.get_connections_from_lane v.connections lv.id := by
            rw [ho2, hout1, hconn, hid]
          show Lane.scrub { lv with
              incoming_connections := Net.get_connections_to_lane v.connections lv.id,
              outgoing_connections := Net.get_connections_from_lane v.connections lv.id,
              requests := lv.requests ++ reqs } = Lane.scrub lv
          unfold Lane.scrub
          simp only
          rw [← hvinc, ← hvout]
        obtain ⟨w, hw, hws, hwj⟩ := ih (Net.updateLane v r (fun lane =>
            { lane with
              incoming_connections := Net.get_connections_to_lane v.connections lv.id,
              outgoing_connections := Net.get_connections_from_lane v.connections lv.id,
              requests := lane.requests ++ reqs }))
          (hscrubstep.trans hscrub)
          (by rw [updateLane_junctions]; exact hjk)
          (fun r2 hr2 => hmem r2 (List.mem_cons_of_mem r hr2))
        refine ⟨w, ?_, hws, ?_⟩
        · simp only [Net.process_inc_lanes, hstep]
          exact hw
        · rw [hwj, updateLane_junctions]

/-- Reduction of the junction step once the junction at the position is
known. -/
theorem process_junction_at_some (u : Net) (k : Nat) (j : Junction)
    (hj : u.junctions[k]? = some j) :
    Net.process_junction u k = (if j.type == "internal" then .ok u else
      match Net.resolveLaneIds u j.incLane_ids with
      | .error msg => .error msg
      | .ok incRefs =>
        match Net.resolveLaneIds u j.intLane_ids with
        | .error msg => .error msg
        | .ok intRefs =>
          Net.process_inc_lanes (Net.append_junction_lanes u k incRefs intRefs) k
            ((((Net.append_junction_lanes u k incRefs intRefs).junctions[k]?).map
              Junction.incLanes).getD [])) := by
  unfold Net.process_junction
  rw [hj]

/-- Rerunning the junction loop on the output of a successful run
succeeds and preserves the scrubbed state. -/
theorem process_junctions_rerun (s1 : Net)
    (hgood : ∀ (k : Nat) (j1 : Junction), s1.junctions[k]? = some j1 →
      (j1.type == "internal") = false →
      ∃ incR intR, Net.resolveLaneIds s1 j1.incLane_ids = .ok incR ∧
        Net.resolveLaneIds s1 j1.intLane_ids = .ok intR ∧ ∀ r ∈ incR, r ∈ j1.incLanes)
    (hsat : ∀ (k : Nat) (j1 : Junction), s1.junctions[k]? = some j1 →
      (j1.type == "internal") = false →
      ∀ r ∈ j1.incLanes, laneDone s1 r ∧ ∀ l, derefLane s1 r = some l →
        ∃ reqs, Net.gather_requests s1 j1
          (Net.get_connections_from_lane s1.connections l.id) = .ok reqs) :
    ∀ (ks : List Nat) (u : Net), ks.Nodup → u.scrub = s1.scrub →
      (∀ k ∈ ks, u.junctions[k]? = s1.junctions[k]?) →
      ∃ w, Net.process_junctions u ks = .ok w ∧ w.scrub = s1.scrub := by
  intro ks
  induction ks with
  | nil =>
    intro u _ hscrub _
    exact ⟨u, rfl, hscrub⟩
  | cons k ks ih =>
    intro u hnod hscrub hpos
    obtain ⟨hknotin, hnod2⟩ := List.nodup_cons.mp hnod
    have hk : u.junctions[k]? = s1.junctions[k]? := hpos k (List.mem_cons_self k ks)
    have hstrip : u.strip = s1.strip := scrub_eq_imp_strip_eq u s1 hscrub
    have hestrip0 := congrArg Net.edges hstrip
    have hestrip : u.edges.map Edge.strip = s1.edges.map Edge.strip := hestrip0
    cases hj1 : s1.junctions[k]? with
    | none =>
      have hstep : Net.process_junction u k = .ok u := by
        unfold Net.process_junction
        rw [hk, hj1]
      obtain ⟨w, hw, hws⟩ := ih u hnod2 hscrub
        (fun k2 hk2 => hpos k2 (List.mem_cons_of_mem k hk2))
      exact ⟨w, by simp only [Net.process_junctions, hstep]; exact hw, hws⟩
    | some j1 =>
      have hred := process_junction_at_some u k j1 (by rw [hk]; exact hj1)
      by_cases ht : (j1.type == "internal") = true
      · have hstep : Net.process_junction u k = .ok u := by
          rw [hred, if_pos ht]
        obtain ⟨w, hw, hws⟩ := ih u hnod2 hscrub
          (fun k2 hk2 => hpos k2 (List.mem_cons_of_mem k hk2))
        exact ⟨w, by simp only [Net.process_junctions, hstep]; exact hw, hws⟩
      · have htf : (j1.type == "internal") = false := by
          cases hb : (j1.type == "internal") with
          | true => exact absurd hb ht
          | false => rfl
        obtain ⟨incR, intR, hinc, hint2, hmem⟩ := hgood k j1 hj1 htf
        have hincu : Net.resolveLaneIds u j1.incLane_ids = .ok incR := by
          rw [resolveLaneIds_congr u s1 hestrip]
          exact hinc
        have hintu : Net.resolveLaneIds u j1.intLane_ids = .ok intR := by
          rw [resolveLaneIds_congr u s1 hestrip]
          exact hint2
        have hva : (Net.append_junction_lanes u k incR intR).junctions[k]? =
            some { j1 with incLanes := j1.incLanes ++ incR,
                           intLanes := j1.intLanes ++ intR } := by
          rw [append_junction_lanes_at, hk, hj1]
          rfl
        have hvscrub : (Net.append_junction_lanes u k incR intR).scrub = s1.scrub := by
          rw [append_junction_lanes_scrub]
          exact hscrub
        have hstep : Net.process_junction u k =
            Net.process_inc_lanes (Net.append_junction_lanes u k incR intR) k
              (j1.incLanes ++ incR) := by
          rw [hred, if_neg ht]
          simp only [hincu, hintu, hva]
          rfl
        obtain ⟨w1, hw1, hw1s, hw1j⟩ := process_inc_lanes_rerun s1 k j1
          { j1 with incLanes := j1.incLanes ++ incR, intLanes := j1.intLanes ++ intR }
          rfl rfl rfl (hsat k j1 hj1 htf) (j1.incLanes ++ incR)
          (Net.append_junction_lanes u k incR intR) hvscrub hva
          (fun r hr => by
            rcases List.mem_append.mp hr with h1 | h2
            · exact h1
            · exact hmem r h2)
        have hpj : Net.process_junction u k = .ok w1 := by
          rw [hstep]
          exact hw1
        obtain ⟨w, hw, hws⟩ := ih w1 hnod2 hw1s (fun k2 hk2 => by
          have hne : k ≠ k2 := fun hc => hknotin (hc ▸ hk2)
          rw [hw1j, append_junction_lanes_ne u k k2 hne]
          exact hpos k2 (List.mem_cons_of_mem k hk2))
        exact ⟨w, by simp only [Net.process_junctions, hpj]; exact hw, hws⟩

/-! ### The second run of the connection loop -/

/-- Via-lane resolution only depends on the stripped edges. -/
theorem resolve_via_congr (es es2 : List Edge)
    (h : es.map Edge.strip = es2.map Edge.strip) (c : Connection) :
    Net.resolve_via es c = Net.resolve_via es2 c := by
  unfold Net.resolve_via
  cases hcv : c.via_id with
  | some v => exact get_lane_strip_congr es es2 h v
  | none => rfl

/-- From- and to-lane resolution only depends on the stripped edges. -/
theorem resolve_lane_on_edge_congr (es es2 : List Edge)
    (h : es.map Edge.strip = es2.map Edge.strip) (eid : String) (idx : Int)
    (old : Option LaneRef) :
    Net.resolve_lane_on_edge es eid idx old = Net.resolve_lane_on_edge es2 eid idx old := by
  unfold Net.resolve_lane_on_edge
  have hf := findEdge_strip_congr es es2 h eid
  cases hfe : findEdge es eid <;> cases hfe2 : findEdge es2 eid <;> rw [hfe, hfe2] at hf
  · exact absurd hf (by simp)
  · exact absurd hf (by simp)
  · rename_i e e2
    have he : Edge.strip e = Edge.strip e2 := by injection hf
    have hl : (Edge.strip e).lanes = (Edge.strip e2).lanes := congrArg Edge.lanes he
    have hany : (e.lanes.any fun l => l.index == idx) =
        (e2.lanes.any fun l => l.index == idx) :=
      lanes_any_index_strip_congr e.lanes e2.lanes hl idx
    have hid0 := congrArg Edge.id he
    have hid : e.id = e2.id := hid0
    show (if (e.lanes.any fun l => l.index == idx) = true
        then Except.ok (some (⟨e.id, idx⟩ : LaneRef))
        else (Except.error "IndexError: Edge contains no Lane with given index." :
          Except String (Option LaneRef))) = _
    rw [hany, hid]

/-- Linking one connection only depends on the stripped edges. -/
theorem link_connection_congr (es es2 : List Edge)
    (h : es.map Edge.strip = es2.map Edge.strip) (c : Connection) :
    Net.link_connection es c = Net.link_connection es2 c := by
  unfold Net.link_connection
  rw [resolve_via_congr es es2 h c]
  cases hrv : Net.resolve_via es2 c with
  | error m => rfl
  | ok vlane =>
    simp only []
    rw [resolve_lane_on_edge_congr es es2 h c.from_edge_id c.from_lane_index c.from_lane]
    cases hrf : Net.resolve_lane_on_edge es2 c.from_edge_id c.from_lane_index c.from_lane with
    | error m => rfl
    | ok flane =>
      simp only []
      rw [resolve_lane_on_edge_congr es es2 h c.to_edge_id c.to_lane_index c.to_lane]
      cases hrt : Net.resolve_lane_on_edge es2 c.to_edge_id c.to_lane_index c.to_lane with
      | error m => rfl
      | ok tlane =>
        simp only []
        rw [findEdge_id_congr es es2 h c.from_edge_id, findEdge_id_congr es es2 h c.to_edge_id]

/-- Relinking an already-linked connection returns it unchanged. -/
theorem link_connection_idem (es : List Edge) (c c1 : Connection)
    (h : Net.link_connection es c = .ok c1) :
    Net.link_connection es c1 = .ok c1 := by
  unfold Net.link_connection at h
  cases hrv : Net.resolve_via es c with
  | error m => simp only [hrv] at h; exact Except.noConfusion h
  | ok vlane =>
    simp only [hrv] at h
    cases hrf : Net.resolve_lane_on_edge es c.from_edge_id c.from_lane_index c.from_lane with
    | error m => simp only [hrf] at h; exact Except.noConfusion h
    | ok flane =>
      simp only [hrf] at h
      cases hrt : Net.resolve_lane_on_edge es c.to_edge_id c.to_lane_index c.to_lane with
      | error m => simp only [hrt] at h; exact Except.noConfusion h
      | ok tlane =>
        simp only [hrt] at h
        injection h with h
        subst h
        have hrv2 : Net.resolve_via es
            { c with via_lane := vlane,
                     from_edge := (findEdge es c.from_edge_id).map Edge.id,
                     from_lane := flane,
                     to_edge := (findEdge es c.to_edge_id).map Edge.id,
                     to_lane := tlane } = .ok vlane := by
          show (match c.via_id with
            | some v => Net.get_lane es v
            | none => (Except.ok vlane : Except String (Option LaneRef))) = Except.ok vlane
          cases hcv : c.via_id with
          | some v =>
            unfold Net.resolve_via at hrv
            rw [hcv] at hrv
            exact hrv
          | none => rfl
        have hrf2 : Net.resolve_lane_on_edge es c.from_edge_id c.from_lane_index flane =
            .ok flane := by
          unfold Net.resolve_lane_on_edge at hrf ⊢
          cases hfe : findEdge es c.from_edge_id with
          | none => rfl
          | some e =>
            rw [hfe] at hrf
            cases hany : (e.lanes.any fun l => l.index == c.from_lane_index) with
            | true =>
              simp only [hany] at hrf ⊢
              exact hrf
            | false =>
              simp only [hany] at hrf
              exact Except.noConfusion hrf
        have hrt2 : Net.resolve_lane_on_edge es c.to_edge_id c.to_lane_index tlane =
            .ok tlane := by
          unfold Net.resolve_lane_on_edge at hrt ⊢
          cases hfe : findEdge es c.to_edge_id with
          | none => rfl
          | some e =>
            rw [hfe] at hrt
            cases hany : (e.lanes.any fun l => l.index == c.to_lane_index) with
            | true =>
              simp only [hany] at hrt ⊢
              exact hrt
            | false =>
              simp only [hany] at hrt
              exact Except.noConfusion hrt
        unfold Net.link_connection
        simp only [hrv2, hrf2, hrt2]

/-- Each element of a linked connection list arises from linking some
input connection. -/
theorem link_connections_list_elements (es : List Edge) :
    ∀ (cs cs1 : List Connection), Net.link_connections_list es cs = .ok cs1 →
      ∀ c1 ∈ cs1, ∃ c ∈ cs, Net.link_connection es c = .ok c1 := by
  intro cs
  induction cs with
  | nil =>
    intro cs1 h c1 hc1
    injection h with h
    subst h
    exact absurd hc1 (List.not_mem_nil c1)
  | cons c cs ih =>
    intro cs1 h c1 hc1
    cases hlc : Net.link_connection es c with
    | error m => simp only [Net.link_connections_list, hlc] at h; exact Except.noConfusion h
    | ok c2 =>
      simp only [Net.link_connections_list, hlc] at h
      cases hrest : Net.link_connections_list es cs with
      | error m => simp only [hrest] at h; exact Except.noConfusion h
      | ok rest =>
        simp only [hrest] at h
        injection h with h
        subst h
        rcases List.mem_cons.mp hc1 with he | hm
        · subst he
          exact ⟨c, List.mem_cons_self c cs, hlc⟩
        · obtain ⟨c0, hc0, hl0⟩ := ih rest hrest c1 hm
          exact ⟨c0, List.mem_cons_of_mem c hc0, hl0⟩

/-- A connection list whose elements relink to themselves relinks to
itself. -/
theorem link_connections_list_fixed (es : List Edge) :
    ∀ cs : List Connection, (∀ c ∈ cs, Net.link_connection es c = .ok c) →
      Net.link_connections_list es cs = .ok cs := by
  intro cs
  induction cs with
  | nil => intro h; rfl
  | cons c cs ih =>
    intro h
    have hc := h c (List.mem_cons_self c cs)
    have hrest := ih (fun c2 hc2 => h c2 (List.mem_cons_of_mem c hc2))
    simp only [Net.link_connections_list, hc, hrest]

/-- Positions past the end of a list read none. -/
theorem getElem_none_of_ge {α : Type} : ∀ (xs : List α) (i : Nat),
    xs.length ≤ i → xs[i]? = none := by
  intro xs
  induction xs with
  | nil => intro i _; cases i <;> rfl
  | cons x xs ih =>
    intro i hi
    cases i with
    | zero => exact absurd hi (by simp)
    | succ i =>
      simp only [List.getElem?_cons_succ]
      exact ih i (Nat.le_of_succ_le_succ hi)

/-- C2 (amended): the linking pass is not idempotent on the junction
lane-reference lists and lane request lists, which are appended to
again; but a second run of the pass on an already-linked network always
succeeds, and the rerun output agrees with its input everywhere else:
same edges with the same resolved junction references, same lane
connection lists, same junctions up to the appended lane-reference
lists, same lanes up to the appended request lists, and identical
relinked connections (the scrubbed states are equal). -/
theorem link_objects_rerun_amended (net net1 : Net)
    (h : Net.link_objects net = .ok net1) :
    ∃ net2, Net.link_objects net1 = .ok net2 ∧ net2.scrub = net1.scrub := by
  unfold Net.link_objects at h
  cases hpj : Net.process_junctions (Net.link_edges net)
      (List.range (Net.link_edges net).junctions.length) with
  | error m => simp only [hpj] at h; exact Except.noConfusion h
  | ok s2a =>
    simp only [hpj] at h
    cases hlc : Net.link_connections_list s2a.edges s2a.connections with
    | error m => simp only [hlc] at h; exact Except.noConfusion h
    | ok cs1 =>
      simp only [hlc] at h
      injection h with h
      subst h
      have W := process_junctions_extract (List.range (Net.link_edges net).junctions.length)
        (Net.link_edges net) s2a (List.nodup_range _) hpj
      have hstripS := process_junctions_strip _ _ _ hpj
      have hconnstrip : cs1.map Connection.strip = s2a.connections.map Connection.strip :=
        link_connections_list_strip s2a.edges s2a.connections cs1 hlc
      have hjs0 := congrArg Net.junctions hstripS
      have hjs : s2a.junctions.map Junction.strip =
          (Net.link_edges net).junctions.map Junction.strip := hjs0
      have hlen : s2a.junctions.length = (Net.link_edges net).junctions.length := by
        have h2 := congrArg List.length hjs
        rw [List.length_map, List.length_map] at h2
        exact h2
      have hmemk : ∀ (k : Nat) (j1 : Junction), s2a.junctions[k]? = some j1 →
          k ∈ List.range (Net.link_edges net).junctions.length := by
        intro k j1 hk
        apply List.mem_range.mpr
        rw [← hlen]
        by_contra hge
        have hge2 : s2a.junctions.length ≤ k := Nat.le_of_not_lt hge
        rw [getElem_none_of_ge s2a.junctions k hge2] at hk
        exact Option.noConfusion hk
      have hgood : ∀ (k : Nat) (j1 : Junction),
          ({ s2a with connections := cs1 } : Net).junctions[k]? = some j1 →
          (j1.type == "internal") = false →
          ∃ incR intR,
            Net.resolveLaneIds { s2a with connections := cs1 } j1.incLane_ids = .ok incR ∧
            Net.resolveLaneIds { s2a with connections := cs1 } j1.intLane_ids = .ok intR ∧
            ∀ r ∈ incR, r ∈ j1.incLanes := by
        intro k j1 hk hnint
        have hk2 : s2a.junctions[k]? = some j1 := hk
        obtain ⟨incR, intR, hinc, hint2, hmem⟩ :=
          (W.2.2.2 k (hmemk k j1 hk2) j1 hk2 hnint).1
        refine ⟨incR, intR, ?_, ?_, hmem⟩
        · rw [resolveLaneIds_congr { s2a with connections := cs1 } s2a rfl]
          exact hinc
        · rw [resolveLaneIds_congr { s2a with connections := cs1 } s2a rfl]
          exact hint2
      have hsat : ∀ (k : Nat) (j1 : Junction),
          ({ s2a with connections := cs1 } : Net).junctions[k]? = some j1 →
          (j1.type == "internal") = false →
          ∀ r ∈ j1.incLanes, laneDone { s2a with connections := cs1 } r ∧
            ∀ l, derefLane { s2a with connections := cs1 } r = some l →
            ∃ reqs, Net.gather_requests { s2a with connections := cs1 } j1
              (Net.get_connections_from_lane
                ({ s2a with connections := cs1 } : Net).connections l.id) = .ok reqs := by
        intro k j1 hk hnint r hr
        have hk2 : s2a.junctions[k]? = some j1 := hk
        have hD := (W.2.2.2 k (hmemk k j1 hk2) j1 hk2 hnint).2 r hr
        constructor
        · intro l hl
          have hl2 : derefLane s2a r = some l := hl
          obtain ⟨h1, h2⟩ := hD.1 l hl2
          constructor
          · rw [h1]
            exact get_connections_to_congr s2a.connections cs1 hconnstrip.symm l.id
          · rw [h2]
            exact get_connections_from_congr s2a.connections cs1 hconnstrip.symm l.id
        · exact gather_ok_transfer s2a { s2a with connections := cs1 } j1 rfl hconnstrip r hD.2
      have hEL : Net.edgesLinked { s2a with connections := cs1 } := by
        have hE2 : Net.edgesLinked s2a :=
          edgesLinked_process_junctions _ _ _ hpj (edgesLinked_link_edges net)
        intro e he
        exact hE2 e he
      have hle : Net.link_edges { s2a with connections := cs1 } =
          { s2a with connections := cs1 } :=
        link_edges_of_linked _ hEL
      obtain ⟨w, hw, hws⟩ := process_junctions_rerun { s2a with connections := cs1 } hgood hsat
        (List.range ({ s2a with connections := cs1 } : Net).junctions.length)
        { s2a with connections := cs1 } (List.nodup_range _) rfl (fun k _ => rfl)
      have hwconn0 := congrArg Net.connections hws
      have hwconn : w.connections = cs1 := hwconn0
      have hwstrip : w.strip = ({ s2a with connections := cs1 } : Net).strip :=
        scrub_eq_imp_strip_eq _ _ hws
      have hwe0 := congrArg Net.edges hwstrip
      have hwe : w.edges.map Edge.strip = s2a.edges.map Edge.strip := hwe0
      have hfix : ∀ c ∈ cs1, Net.link_connection w.edges c = .ok c := by
        intro c hc
        obtain ⟨c0, hc0, hl0⟩ :=
          link_connections_list_elements s2a.edges s2a.connections cs1 hlc c hc
        have hidem := link_connection_idem s2a.edges c0 c hl0
        rw [link_connection_congr w.edges s2a.edges hwe c]
        exact hidem
      have hlc2 : Net.link_connections_list w.edges w.connections = .ok cs1 := by
        rw [hwconn]
        exact link_connections_list_fixed w.edges cs1 hfix
      refine ⟨{ w with connections := cs1 }, ?_, ?_⟩
      · unfold Net.link_objects
        rw [hle]
        simp only [hw, hlc2]
      · show ({ w with connections := cs1 } : Net).scrub =
          ({ s2a with connections := cs1 } : Net).scrub
        unfold Net.scrub
        simp only
        have he0 := congrArg Net.edges hws
        have he2 : w.edges.map Edge.scrub = s2a.edges.map Edge.scrub := he0
        have hj0 := congrArg Net.junctions hws
        have hj2 : w.junctions.map Junction.scrub = s2a.junctions.map Junction.scrub := hj0
        rw [he2, hj2]

/-- The linked form of the rerun fixture. -/
def fixLinkedC2 : Net := (Net.link_objects fixNetC2).toOption.getD fixNetC2

theorem link_objects_rerun_amended_witness :
    Net.link_objects fixNetC2 = .ok fixLinkedC2 ∧
    ∃ net2, Net.link_objects fixLinkedC2 = .ok net2 ∧ net2.scrub = fixLinkedC2.scrub :=
  ⟨by decide, link_objects_rerun_amended fixNetC2 fixLinkedC2 (by decide)⟩

end SumoNetVis
